import Mathlib

/-!
Shallow embedding of the normalization engine of
`backend_py/app/services/normalization_service.py`: the alias resolver,
the scalar coercers, the row normalizer and the batch normalizer, together
with theorems settling the specification claims about them.

Conventions of the embedding:
* Python `str | None` cell values are `Option String`.
* Python `float` results are `PyFloat` (exact rationals plus the infinite
  and not-a-number points, enough to decide sign checks faithfully).
* Python exceptions escaping a function are `Except PyExn`.
* String manipulation is done on `List Char` with structural recursion so
  that every definition evaluates by kernel reduction.
-/

deriving instance DecidableEq for Except

namespace Meridian

/-- A raw CSV cell: `none` models Python `None`, `some s` a string cell. -/
abbrev Cell := Option String

/-- A raw row as produced by the CSV reader: an ordered mapping from source
column name to cell value (insertion order, unique keys). -/
abbrev RawRow := List (String × Cell)

/-- A Python exception escaping the row pipeline (`ValueError`/`TypeError`
raised by `datetime.fromisoformat` or by comparing naive and aware
datetimes in the cross-field check). -/
inductive PyExn where
  | valueError (msg : String)
  | typeError (msg : String)
  deriving Repr, DecidableEq

/-! ### Character-level helpers (Python `str` methods) -/

/-- Whitespace for Python `str.strip`. -/
def isSpaceChar (c : Char) : Bool :=
  c = ' ' ∨ c = '\t' ∨ c = '\n' ∨ c = '\r' ∨ c = '\x0b' ∨ c = '\x0c'

/-- Python `str.strip` on a character list. -/
def trimChars (cs : List Char) : List Char :=
  ((cs.dropWhile isSpaceChar).reverse.dropWhile isSpaceChar).reverse

/-- Python `str.strip`. -/
def pyStrip (s : String) : String := String.mk (trimChars s.data)

/-- Python `str.lower` (ASCII model). -/
def pyLower (s : String) : String := String.mk (s.data.map Char.toLower)

/-- Python `str.upper` (ASCII model). -/
def pyUpper (s : String) : String := String.mk (s.data.map Char.toUpper)

/-- Replace every occurrence of a single character by a replacement list
(the only shapes of `str.replace` the source uses: `","→""`, `"Z"→"+00:00"`). -/
def replaceChar (target : Char) (rep : List Char) : List Char → List Char
  | [] => []
  | c :: rest => (if c = target then rep else [c]) ++ replaceChar target rep rest

/-- Split a character list at `_`, keeping empty groups (Python
`str.split("_")`). -/
def splitUnderscore : List Char → List Char → List (List Char)
  | [], acc => [acc.reverse]
  | c :: rest, acc =>
    if c = '_' then acc.reverse :: splitUnderscore rest []
    else splitUnderscore rest (c :: acc)

/-- Join character groups with `_` (Python `"_".join`). -/
def joinUnderscore : List (List Char) → List Char
  | [] => []
  | [g] => g
  | g :: gs => g ++ '_' :: joinUnderscore gs

/-! ### The scalar coercers -/

/-- `_slugify`: lowercase alphanumerics, replace every other character by
`_`, then drop empty groups and join the rest with single `_`. -/
def slugify (value : String) : String :=
  let normalized := value.data.map (fun c => if c.isAlphanum then c.toLower else '_')
  String.mk (joinUnderscore ((splitUnderscore normalized []).filter (· ≠ [])))

/-- `_is_blank`: `None` or a string that is empty after trimming. -/
def isBlank (value : Cell) : Bool :=
  match value with
  | none => true
  | some s => trimChars s.data = []

/-- `_to_text`: blank becomes `None`, otherwise the trimmed string. -/
def toText (value : Cell) : Option String :=
  if isBlank value then none else some (pyStrip (value.getD ""))

/-- An exact (unnormalized) fraction `num / den` with `den` a positive
power of ten by construction. -/
structure Frac where
  num : Int
  den : Nat
  deriving Repr, DecidableEq

/-- The value space of Python `float`: finite values kept exact as
fractions, plus signed infinity and NaN (reachable from inputs such as
`"inf"` or `"nan"`). -/
inductive PyFloat where
  | finite (f : Frac)
  | infinite (neg : Bool)
  | nan
  deriving Repr, DecidableEq

/-- Python `f < 0` on a float. NaN compares false; `-0.0 < 0` is false,
which `-0 < 0` on integers also gives. -/
def PyFloat.isNegative : PyFloat → Bool
  | .finite f => f.num < 0
  | .infinite neg => neg
  | .nan => false

/-- One decimal digit. -/
def digitVal (c : Char) : Nat := c.toNat - '0'.toNat

/-- Parse a nonempty digit group in which single underscores may appear
between two digits (the Python numeric-literal rule); returns the value,
the number of digits consumed, and the rest. -/
def parseDigitsU : List Char → Nat → Nat → Option (Nat × Nat × List Char)
  | [], acc, count => if count = 0 then none else some (acc, count, [])
  | c :: rest, acc, count =>
    if c.isDigit then
      parseDigitsU rest (acc * 10 + digitVal c) (count + 1)
    else if c = '_' then
      match rest with
      | d :: rest' =>
        if d.isDigit ∧ count ≠ 0 then
          parseDigitsU rest' (acc * 10 + digitVal d) (count + 1)
        else if count = 0 then none else some (acc, count, c :: rest)
      | [] => if count = 0 then none else some (acc, count, c :: rest)
    else
      if count = 0 then none else some (acc, count, c :: rest)

/-- Parse an optional sign; returns `true` for `-`. -/
def parseSign : List Char → Bool × List Char
  | '+' :: rest => (false, rest)
  | '-' :: rest => (true, rest)
  | cs => (false, cs)

/-- The exact value `±(ip.fp) * 10^(±e)` of a Python float literal. -/
def ratOfParts (neg : Bool) (ip : Nat) (fp : Nat) (fdigits : Nat) (eneg : Bool) (e : Nat) : Frac :=
  let n0 : Nat := ip * 10 ^ fdigits + fp
  let n1 : Nat := if eneg then n0 else n0 * 10 ^ e
  let d : Nat := if eneg then 10 ^ fdigits * 10 ^ e else 10 ^ fdigits
  { num := if neg then -(n1 : Int) else (n1 : Int), den := d }

/-- Parse the optional exponent part `([eE][+-]?digits)?`; the whole input
must be consumed. -/
def parseExponent : List Char → Option (Bool × Nat)
  | [] => some (false, 0)
  | c :: rest =>
    if c = 'e' ∨ c = 'E' then
      let (eneg, rest') := parseSign rest
      match parseDigitsU rest' 0 0 with
      | some (e, _, []) => some (eneg, e)
      | _ => none
    else none

/-- Python `float(text)`: optional surrounding whitespace, optional sign,
then either a decimal literal (integer part and/or fractional part,
optional exponent) or one of the words `inf`/`infinity`/`nan`
(case-insensitive). Returns `none` where Python raises `ValueError`. -/
def pyFloatOfString (text : String) : Option PyFloat :=
  let cs0 := trimChars text.data
  let (neg, cs) := parseSign cs0
  let word := cs.map Char.toLower
  if word = "inf".data ∨ word = "infinity".data then some (.infinite neg)
  else if word = "nan".data then some .nan
  else
    match parseDigitsU cs 0 0 with
    | some (ip, _, rest) =>
      match rest with
      | '.' :: rest' =>
        match parseDigitsU rest' 0 0 with
        | some (fp, fd, rest'') =>
          match parseExponent rest'' with
          | some (eneg, e) => some (.finite (ratOfParts neg ip fp fd eneg e))
          | none => none
        | none =>
          match parseExponent rest' with
          | some (eneg, e) => some (.finite (ratOfParts neg ip 0 0 eneg e))
          | none => none
      | _ =>
        match parseExponent rest with
        | some (eneg, e) => some (.finite (ratOfParts neg ip 0 0 eneg e))
        | none => none
    | none =>
      match cs with
      | '.' :: rest' =>
        match parseDigitsU rest' 0 0 with
        | some (fp, fd, rest'') =>
          match parseExponent rest'' with
          | some (eneg, e) => some (.finite (ratOfParts neg 0 fp fd eneg e))
          | none => none
        | none => none
      | _ => none

/-- `_to_float`: blank input gives `None`; otherwise strip `,` thousands
separators and apply Python `float`, with `ValueError` mapped to `None`. -/
def toFloat (value : Cell) : Option PyFloat :=
  match toText value with
  | none => none
  | some text => pyFloatOfString (String.mk (replaceChar ',' [] text.data))

/-- `MODE_ALIASES`. -/
def MODE_ALIASES : List (String × String) :=
  [("road", "road"), ("truck", "road"), ("rail", "rail"), ("train", "rail"),
   ("sea", "sea"), ("ocean", "sea"), ("maritime", "sea"),
   ("air", "air"), ("flight", "air"),
   ("multimodal", "multimodal"), ("intermodal", "multimodal")]

/-- `PRIORITY_ALIASES`. -/
def PRIORITY_ALIASES : List (String × String) :=
  [("critical", "critical"), ("urgent", "critical"), ("high", "high"),
   ("medium", "medium"), ("med", "medium"), ("normal", "medium"),
   ("low", "low"), ("p1", "critical"), ("p2", "high"), ("p3", "medium"), ("p4", "low")]

/-- `BOOL_ALIASES`. -/
def BOOL_ALIASES : List (String × Bool) :=
  [("true", true), ("1", true), ("yes", true), ("y", true),
   ("false", false), ("0", false), ("no", false), ("n", false)]

/-! ### Datetimes

Model of the parts of `datetime` the source uses: `fromisoformat` (the
CPython 3.11+ grammar: extended or basic dates, an arbitrary single
separator character, times down to microseconds, `Z` or `±HH[:MM]`
offsets), `strptime` for the six formats in `DATETIME_FORMATS`,
`astimezone(timezone.utc)` and `isoformat`. -/

/-- A `datetime.datetime` value; `tzMin` is the UTC offset in minutes
(`none` for a naive datetime). -/
structure PyDateTime where
  year : Nat
  month : Nat
  day : Nat
  hour : Nat
  minute : Nat
  second : Nat
  usec : Nat
  tzMin : Option Int
  deriving Repr, DecidableEq

/-- Gregorian leap year. -/
def isLeap (y : Nat) : Bool := (y % 4 = 0 ∧ y % 100 ≠ 0) ∨ y % 400 = 0

/-- Days in a month. -/
def daysInMonth (y m : Nat) : Nat :=
  if m = 2 then (if isLeap y then 29 else 28)
  else if m = 4 ∨ m = 6 ∨ m = 9 ∨ m = 11 then 30
  else 31

/-- The `datetime` constructor's date validation. -/
def validYMD (y m d : Nat) : Bool :=
  1 ≤ y ∧ y ≤ 9999 ∧ 1 ≤ m ∧ m ≤ 12 ∧ 1 ≤ d ∧ d ≤ daysInMonth y m

/-- Read exactly `n` decimal digits. -/
def readDigitsExact : Nat → List Char → Nat → Option (Nat × List Char)
  | 0, cs, acc => some (acc, cs)
  | n + 1, c :: cs, acc =>
    if c.isDigit then readDigitsExact n cs (acc * 10 + digitVal c) else none
  | _ + 1, [], _ => none

/-- Read one or two decimal digits (the `strptime` `%m`/`%d`/`%H`/`%M`/`%S`
fields, which accept unpadded values). -/
def read1or2 : List Char → Option (Nat × List Char)
  | c :: d :: cs =>
    if c.isDigit then
      if d.isDigit then some (digitVal c * 10 + digitVal d, cs)
      else some (digitVal c, d :: cs)
    else none
  | [c] => if c.isDigit then some (digitVal c, []) else none
  | [] => none

/-- The date part of `fromisoformat`: `YYYY-MM-DD` or basic `YYYYMMDD`. -/
def parseIsoDate (cs : List Char) : Option (Nat × Nat × Nat × List Char) := do
  let (y, rest) ← readDigitsExact 4 cs 0
  match rest with
  | '-' :: r1 => do
    let (m, r2) ← readDigitsExact 2 r1 0
    match r2 with
    | '-' :: r3 => do
      let (d, r4) ← readDigitsExact 2 r3 0
      pure (y, m, d, r4)
    | _ => none
  | _ => do
    let (m, r2) ← readDigitsExact 2 rest 0
    let (d, r3) ← readDigitsExact 2 r2 0
    pure (y, m, d, r3)

/-- A fractional-seconds part: `.` or `,` then at least one digit; digits
beyond the sixth are truncated (microsecond precision). -/
def parseIsoFraction (cs : List Char) : Option (Nat × List Char) :=
  match cs with
  | c :: rest =>
    if c = '.' ∨ c = ',' then
      let digits := rest.takeWhile Char.isDigit
      if digits = [] then none
      else
        let kept := digits.take 6
        let value := kept.foldl (fun a c => a * 10 + digitVal c) 0
        some (value * 10 ^ (6 - kept.length), rest.dropWhile Char.isDigit)
    else none
  | [] => none

/-- The UTC-offset suffix: nothing, `Z`, or `±HH[:MM]` / `±HHMM` / `±HH`;
hours at most 23 and minutes at most 59. -/
def parseIsoOffset (cs : List Char) : Option (Option Int) :=
  match cs with
  | [] => some none
  | ['Z'] => some (some 0)
  | c :: rest =>
    if c = '+' ∨ c = '-' then do
      let (hh, r1) ← readDigitsExact 2 rest 0
      let (mm, r2) ←
        match r1 with
        | [] => some (0, ([] : List Char))
        | ':' :: r2 => readDigitsExact 2 r2 0
        | _ => readDigitsExact 2 r1 0
      if r2 = [] ∧ hh ≤ 23 ∧ mm ≤ 59 then
        let total : Int := (hh : Int) * 60 + (mm : Int)
        some (some (if c = '-' then -total else total))
      else none
    else none

/-- The time-of-day part of `fromisoformat`: `HH[:MM[:SS[.f]]]` or basic
`HH[MM[SS[.f]]]`, followed by the offset; the whole input is consumed. -/
def parseIsoTime (cs : List Char) : Option (Nat × Nat × Nat × Nat × Option Int) := do
  let (hh, r1) ← readDigitsExact 2 cs 0
  let step : List Char → Option (Nat × List Char) := fun r =>
    match r with
    | ':' :: r' => readDigitsExact 2 r' 0
    | c :: _ => if c.isDigit then readDigitsExact 2 r 0 else none
    | [] => none
  let (mm, ss, us, r4) ←
    match r1 with
    | [] => some (0, 0, 0, ([] : List Char))
    | c :: _ =>
      if c = ':' ∨ c.isDigit then do
        let (mm, r2) ← step r1
        match r2 with
        | [] => some (mm, 0, 0, ([] : List Char))
        | c2 :: _ =>
          if c2 = ':' ∨ c2.isDigit then do
            let (ss, r3) ← step r2
            match parseIsoFraction r3 with
            | some (us, r4) => some (mm, ss, us, r4)
            | none => some (mm, ss, 0, r3)
          else some (mm, 0, 0, r2)
      else some (0, 0, 0, r1)
  let tz ← parseIsoOffset r4
  if hh ≤ 23 ∧ mm ≤ 59 ∧ ss ≤ 59 then some (hh, mm, ss, us, tz) else none

/-- `datetime.fromisoformat` (CPython 3.11+ behavior: the character at the
boundary between date and time may be any single character). -/
def fromisoformat (s : String) : Option PyDateTime := do
  let (y, m, d, rest) ← parseIsoDate s.data
  if validYMD y m d then
    match rest with
    | [] => some ⟨y, m, d, 0, 0, 0, 0, none⟩
    | _sep :: timeCs => do
      let (hh, mm, ss, us, tz) ← parseIsoTime timeCs
      some ⟨y, m, d, hh, mm, ss, us, tz⟩
  else none

/-- One `strptime` date in `Y sep M sep D` order (formats `%Y-%m-%d`,
`%Y/%m/%d`): a four-digit year, unpadded month and day. -/
def parseYmd (sep : Char) (cs : List Char) : Option (Nat × Nat × Nat × List Char) := do
  let (y, r1) ← readDigitsExact 4 cs 0
  match r1 with
  | c :: r2 =>
    if c = sep then do
      let (m, r3) ← read1or2 r2
      match r3 with
      | c2 :: r4 =>
        if c2 = sep then do
          let (d, r5) ← read1or2 r4
          pure (y, m, d, r5)
        else none
      | [] => none
    else none
  | [] => none

/-- One `strptime` date in `M/D/Y` order (format `%m/%d/%Y`). -/
def parseMdy (cs : List Char) : Option (Nat × Nat × Nat × List Char) := do
  let (m, r1) ← read1or2 cs
  match r1 with
  | '/' :: r2 => do
    let (d, r3) ← read1or2 r2
    match r3 with
    | '/' :: r4 => do
      let (y, r5) ← readDigitsExact 4 r4 0
      pure (y, m, d, r5)
    | _ => none
  | _ => none

/-- The `strptime` time part ` %H:%M:%S` with a leading space. -/
def parseHms (cs : List Char) : Option (Nat × Nat × Nat × List Char) := do
  match cs with
  | ' ' :: r0 => do
    let (h, r1) ← read1or2 r0
    match r1 with
    | ':' :: r2 => do
      let (mi, r3) ← read1or2 r2
      match r3 with
      | ':' :: r4 => do
        let (s, r5) ← read1or2 r4
        pure (h, mi, s, r5)
      | _ => none
    | _ => none
  | _ => none

/-- The six entries of `DATETIME_FORMATS` as date order, separator and
whether a ` %H:%M:%S` tail is expected. -/
inductive DtFormat where
  | ymd (sep : Char) (withTime : Bool)
  | mdy (withTime : Bool)
  deriving Repr, DecidableEq

/-- `DATETIME_FORMATS`, in order. -/
def DATETIME_FORMATS : List DtFormat :=
  [.ymd '-' false, .ymd '/' false, .ymd '-' true, .ymd '/' true, .mdy false, .mdy true]

/-- `datetime.strptime` for one format: the whole string must be consumed
and the resulting date and time must be valid. -/
def strptimeFmt (fmt : DtFormat) (cs : List Char) : Option PyDateTime := do
  let (y, m, d, rest) ←
    match fmt with
    | .ymd sep _ => parseYmd sep cs
    | .mdy _ => parseMdy cs
  let withTime := match fmt with | .ymd _ w => w | .mdy w => w
  let (h, mi, s, rest') ←
    if withTime then parseHms rest else some (0, 0, 0, rest)
  if rest' = [] ∧ validYMD y m d ∧ h ≤ 23 ∧ mi ≤ 59 ∧ s ≤ 59 then
    some ⟨y, m, d, h, mi, s, 0, none⟩
  else none

/-- Days since 1970-01-01 of a civil date (proleptic Gregorian). -/
def daysFromCivil (y m d : Int) : Int :=
  let y' := if m ≤ 2 then y - 1 else y
  let era := Int.fdiv y' 400
  let yoe := y' - era * 400
  let mp := Int.fmod (m + 9) 12
  let doy := Int.fdiv (153 * mp + 2) 5 + d - 1
  let doe := yoe * 365 + Int.fdiv yoe 4 - Int.fdiv yoe 100 + doy
  era * 146097 + doe - 719468

/-- The civil date of a day count since 1970-01-01. -/
def civilFromDays (z : Int) : Int × Int × Int :=
  let z' := z + 719468
  let era := Int.fdiv z' 146097
  let doe := z' - era * 146097
  let yoe := Int.fdiv (doe - Int.fdiv doe 1460 + Int.fdiv doe 36524 - Int.fdiv doe 146096) 365
  let y := yoe + era * 400
  let doy := doe - (365 * yoe + Int.fdiv yoe 4 - Int.fdiv yoe 100)
  let mp := Int.fdiv (5 * doy + 2) 153
  let d := doy - Int.fdiv (153 * mp + 2) 5 + 1
  let m := mp + (if mp < 10 then 3 else -9)
  (if m ≤ 2 then y + 1 else y, m, d)

/-- The naive microsecond count of a datetime's civil fields. -/
def naiveMicros (dt : PyDateTime) : Int :=
  daysFromCivil (dt.year : Int) (dt.month : Int) (dt.day : Int) * 86400000000 +
    (((dt.hour * 60 + dt.minute) * 60 + dt.second) * 1000000 + dt.usec : Nat)

/-- `astimezone(timezone.utc)` on an aware datetime (identity on a naive
one, which the source never passes to it). -/
def astimezoneUTC (dt : PyDateTime) : PyDateTime :=
  match dt.tzMin with
  | none => dt
  | some o =>
    if o = 0 then { dt with tzMin := some 0 }
    else
      let abs := naiveMicros dt - o * 60000000
      let day := Int.fdiv abs 86400000000
      let rem := (abs - day * 86400000000).toNat
      let (y, m, d) := civilFromDays day
      { year := y.toNat, month := m.toNat, day := d.toNat,
        hour := rem / 3600000000, minute := rem / 60000000 % 60,
        second := rem / 1000000 % 60, usec := rem % 1000000, tzMin := some 0 }

/-- A decimal digit character. -/
def digitChar (n : Nat) : Char := Char.ofNat ('0'.toNat + n % 10)

/-- Zero-padded two-digit rendering. -/
def pad2 (n : Nat) : List Char := [digitChar (n / 10), digitChar n]

/-- Zero-padded four-digit rendering. -/
def pad4 (n : Nat) : List Char := [digitChar (n / 1000), digitChar (n / 100), digitChar (n / 10), digitChar n]

/-- Zero-padded six-digit rendering. -/
def pad6 (n : Nat) : List Char :=
  [digitChar (n / 100000), digitChar (n / 10000), digitChar (n / 1000),
   digitChar (n / 100), digitChar (n / 10), digitChar n]

/-- The `±HH:MM` offset suffix of `datetime.isoformat`. -/
def renderOffset (o : Int) : List Char :=
  (if o < 0 then '-' else '+') :: (pad2 (Int.natAbs o / 60) ++ ':' :: pad2 (Int.natAbs o % 60))

/-- `datetime.isoformat`: `YYYY-MM-DDTHH:MM:SS[.ffffff][±HH:MM]`. -/
def isoRender (dt : PyDateTime) : String :=
  String.mk (pad4 dt.year ++ '-' :: pad2 dt.month ++ '-' :: pad2 dt.day ++
    'T' :: pad2 dt.hour ++ ':' :: pad2 dt.minute ++ ':' :: pad2 dt.second ++
    (if dt.usec = 0 then [] else '.' :: pad6 dt.usec) ++
    (match dt.tzMin with
     | none => []
     | some o => renderOffset o))

/-- `_to_datetime`: try `fromisoformat` on the text with `Z` replaced by
`+00:00` (naive results are assumed UTC, aware ones converted), then the
`DATETIME_FORMATS` list via `strptime` on the original text (assumed UTC);
the result is an ISO string with UTC offset, or `None`. -/
def toDatetime (value : Cell) : Option String :=
  match toText value with
  | none => none
  | some text =>
    let normalized := String.mk (replaceChar 'Z' "+00:00".data text.data)
    match fromisoformat normalized with
    | some dt =>
      let aware := if dt.tzMin.isNone then { dt with tzMin := some 0 } else dt
      some (isoRender (astimezoneUTC aware))
    | none =>
      match DATETIME_FORMATS.findSome? (fun fmt => strptimeFmt fmt text.data) with
      | some dt => some (isoRender { dt with tzMin := some 0 })
      | none => none

/-- Python `dtA > dtB`: naive compares with naive, aware with aware (by
instant); mixing the two raises `TypeError`. -/
def dtGreaterThan (a b : PyDateTime) : Except PyExn Bool :=
  match a.tzMin, b.tzMin with
  | none, none => .ok (naiveMicros a > naiveMicros b)
  | some oa, some ob =>
    .ok (naiveMicros a - oa * 60000000 > naiveMicros b - ob * 60000000)
  | _, _ => .error (.typeError "cannot compare offset-naive and offset-aware datetimes")

/-- `_to_mode`. -/
def toMode (value : Cell) : Option String :=
  match toText value with
  | none => none
  | some text => MODE_ALIASES.lookup (pyLower text)

/-- `_to_priority`. -/
def toPriority (value : Cell) : Option String :=
  match toText value with
  | none => none
  | some text => PRIORITY_ALIASES.lookup (pyLower text)

/-- `_to_bool`. -/
def toBool (value : Cell) : Option Bool :=
  match toText value with
  | none => none
  | some text => BOOL_ALIASES.lookup (pyLower text)

/-! ### The alias resolver -/

/-- `CANONICAL_FIELD_ALIASES`. -/
def CANONICAL_FIELD_ALIASES : List (String × List String) :=
  [("shipment_id", ["shipment_id", "shipment", "tracking_number", "tracking_id"]),
   ("order_id", ["order_id", "order", "purchase_order", "po", "reference"]),
   ("origin_name", ["origin_name", "origin", "origin_location", "from_location", "source"]),
   ("destination_name",
    ["destination_name", "destination", "destination_location", "to_location", "end_location"]),
   ("origin_country", ["origin_country", "from_country", "source_country"]),
   ("destination_country", ["destination_country", "to_country", "target_country"]),
   ("planned_departure_ts",
    ["planned_departure_ts", "planned_departure", "departure_date", "ship_date"]),
   ("planned_arrival_ts", ["planned_arrival_ts", "planned_arrival", "arrival_date", "delivery_date"]),
   ("mode", ["mode", "mode_of_transport", "transport_mode", "shipping_method", "carrier_type"]),
   ("weight_kg", ["weight_kg", "weight", "mass", "kg"]),
   ("volume_cbm", ["volume_cbm", "volume", "cbm", "volume_m3", "cubic_meters"]),
   ("cost_usd", ["cost_usd", "cost", "product_cost", "price", "amount", "value", "unit_cost"]),
   ("priority", ["priority", "priority_level", "service_level"]),
   ("carrier_name", ["carrier_name", "carrier", "carrier_id"]),
   ("incoterm", ["incoterm", "incoterms"]),
   ("commodity", ["commodity", "product_name", "product", "item", "sku", "material"]),
   ("container_type", ["container_type", "container", "equipment_type"]),
   ("hazmat_flag", ["hazmat_flag", "hazmat", "dangerous_goods"]),
   ("temperature_control_flag",
    ["temperature_control_flag", "temperature_control", "cold_chain", "reefer"])]

/-- Set a key in an association list, replacing an existing binding in
place or appending a new one (Python dict assignment). -/
def assocSet (l : List (String × Cell)) (k : String) (v : Cell) : List (String × Cell) :=
  match l with
  | [] => [(k, v)]
  | (k', v') :: rest => if k' = k then (k, v) :: rest else (k', v') :: assocSet rest k v

/-- `_row_lookup`: slugify every key of the row into a fresh mapping, in
row order, last write winning on slug collision. -/
def rowLookup (row : RawRow) : List (String × Cell) :=
  row.foldl (fun l kv => assocSet l (slugify kv.1) kv.2) []

/-- Python `dict.get(key)` with default `None` (an absent key and a key
bound to `None` are indistinguishable, exactly as in the source). -/
def lookupGet (l : List (String × Cell)) (k : String) : Cell :=
  (List.lookup k l).join

/-- The first candidate alias whose slug is bound to a non-blank value. -/
def firstNonBlank (l : List (String × Cell)) : List String → Cell
  | [] => none
  | a :: rest =>
    let v := lookupGet l (slugify a)
    if isBlank v then firstNonBlank l rest else v

/-- `_lookup_field`: try the canonical field name, then its aliases in
order; skip blank candidates; `None` when nothing matches. -/
def lookupField (l : List (String × Cell)) (field : String) : Cell :=
  firstNonBlank l (field :: (CANONICAL_FIELD_ALIASES.lookup field).getD [])

/-! ### The row normalizer -/

/-- A Python value attached to a diagnostic (`value` can be `None`, the
offending text, or the parsed float of a negativity error). -/
inductive PyVal where
  | none
  | str (s : String)
  | num (f : PyFloat)
  deriving Repr, DecidableEq

/-- A diagnostic as built by `_error` / `_warning`. -/
structure Diag where
  row_number : Nat
  field : String
  code : String
  message : String
  value : PyVal
  deriving Repr, DecidableEq

/-- The value of a numeric field after coercion: `flt` when parsed, `raw`
when the unparseable source text was retained, `none` when absent. -/
inductive NumVal where
  | none
  | flt (f : PyFloat)
  | raw (s : String)
  deriving Repr, DecidableEq

/-- `is None` on a numeric field slot. -/
def NumVal.isNone : NumVal → Bool
  | .none => true
  | _ => false

/-- Python truthiness of an optional string. -/
def optTruthy : Option String → Bool
  | Option.none => false
  | some s => s ≠ ""

/-- The `normalized` mapping right after the text-coercion pass: every
canonical field holds `_to_text` output (countries upper-cased). -/
structure TRow where
  shipment_id : Option String
  order_id : Option String
  origin_name : Option String
  destination_name : Option String
  origin_country : Option String
  destination_country : Option String
  planned_departure_ts : Option String
  planned_arrival_ts : Option String
  mode : Option String
  weight_kg : Option String
  volume_cbm : Option String
  cost_usd : Option String
  priority : Option String
  carrier_name : Option String
  incoterm : Option String
  commodity : Option String
  container_type : Option String
  hazmat_flag : Option String
  temperature_control_flag : Option String
  deriving Repr, DecidableEq

/-- The fully normalized row. -/
structure NRow where
  shipment_id : Option String
  order_id : Option String
  origin_name : Option String
  destination_name : Option String
  origin_country : Option String
  destination_country : Option String
  planned_departure_ts : Option String
  planned_arrival_ts : Option String
  mode : Option String
  weight_kg : NumVal
  volume_cbm : NumVal
  cost_usd : NumVal
  priority : Option String
  carrier_name : Option String
  incoterm : Option String
  commodity : Option String
  container_type : Option String
  hazmat_flag : Option Bool
  temperature_control_flag : Option Bool
  deriving Repr, DecidableEq

/-- `value.upper() if value else None` for the two country fields. -/
def upperOrNone (v : Option String) : Option String :=
  match v with
  | Option.none => Option.none
  | some s => if s = "" then Option.none else some (pyUpper s)

/-- The first pass of `_normalize_row`: resolve every canonical field and
apply `_to_text`, upper-casing the country fields. -/
def step1 (row : RawRow) : TRow :=
  let l := rowLookup row
  let get := fun f => toText (lookupField l f)
  { shipment_id := get "shipment_id"
    order_id := get "order_id"
    origin_name := get "origin_name"
    destination_name := get "destination_name"
    origin_country := upperOrNone (get "origin_country")
    destination_country := upperOrNone (get "destination_country")
    planned_departure_ts := get "planned_departure_ts"
    planned_arrival_ts := get "planned_arrival_ts"
    mode := get "mode"
    weight_kg := get "weight_kg"
    volume_cbm := get "volume_cbm"
    cost_usd := get "cost_usd"
    priority := get "priority"
    carrier_name := get "carrier_name"
    incoterm := get "incoterm"
    commodity := get "commodity"
    container_type := get "container_type"
    hazmat_flag := get "hazmat_flag"
    temperature_control_flag := get "temperature_control_flag" }

/-- `_error` / `_warning` (identical record shapes in the source). -/
def mkDiag (row_number : Nat) (field code message : String) (value : PyVal) : Diag :=
  { row_number := row_number, field := field, code := code, message := message, value := value }

/-- The derived-shipment-id step: when `shipment_id` is falsy and
`order_id` truthy, synthesize `derived_<slug>` and warn. -/
def stepDerived (t : TRow) (n : Nat) : TRow × List Diag :=
  if ¬ optTruthy t.shipment_id ∧ optTruthy t.order_id then
    let derived := "derived_" ++ slugify (t.order_id.getD "")
    ({ t with shipment_id := some derived },
     [mkDiag n "shipment_id" "derived_shipment_id"
        "shipment_id missing; derived from order_id." (.str derived)])
  else (t, [])

/-- A cell as a diagnostic value. -/
def cellVal (v : Option String) : PyVal :=
  match v with
  | Option.none => .none
  | some s => .str s

/-- One numeric field: unparseable non-null text keeps the raw text and
yields `invalid_number`; a parsed negative value yields `negative_value`. -/
def numCheck (n : Nat) (name : String) (v : Option String) : NumVal × List Diag :=
  match toFloat v with
  | Option.none =>
    match v with
    | some s => (.raw s, [mkDiag n name "invalid_number" (name ++ " must be numeric.") (.str s)])
    | Option.none => (.none, [])
  | some f =>
    (.flt f,
     if f.isNegative then [mkDiag n name "negative_value" (name ++ " must be >= 0.") (.num f)]
     else [])

/-- One timestamp field: unparseable non-null text keeps the raw text and
yields `invalid_datetime`; otherwise the ISO UTC string (or `None`). -/
def dtCheck (n : Nat) (name : String) (v : Option String) : Option String × List Diag :=
  match toDatetime v with
  | Option.none =>
    match v with
    | some s =>
      (some s,
       [mkDiag n name "invalid_datetime" (name ++ " is not a supported datetime format.") (.str s)])
    | Option.none => (Option.none, [])
  | some iso => (some iso, [])

/-- The cross-field temporal check: guarded only by the truthiness of the
two stored strings; `datetime.fromisoformat` on them can raise (modelled
as `Except.error`), as can comparing naive with aware. -/
def crossCheck (n : Nat) (dep arr : Option String) : Except PyExn (List Diag) :=
  if optTruthy dep ∧ optTruthy arr then
    match fromisoformat (dep.getD "") with
    | Option.none => .error (.valueError ("Invalid isoformat string: " ++ dep.getD ""))
    | some d =>
      match fromisoformat (arr.getD "") with
      | Option.none => .error (.valueError ("Invalid isoformat string: " ++ arr.getD ""))
      | some a =>
        match dtGreaterThan d a with
        | .error e => .error e
        | .ok gt =>
          .ok (if gt then
                 [mkDiag n "planned_arrival_ts" "invalid_time_order"
                    "planned_arrival_ts must be >= planned_departure_ts." .none]
               else [])
  else .ok []

/-- The mode step: store the coerced value (possibly `None`) and report
`invalid_mode` for non-null unrecognized text. -/
def modeCheck (n : Nat) (v : Option String) : Option String × List Diag :=
  let m := toMode v
  (m,
   if m = Option.none ∧ v ≠ Option.none then
     [mkDiag n "mode" "invalid_mode" "mode must be one of road, rail, sea, air, multimodal." (cellVal v)]
   else [])

/-- The priority step. -/
def prioCheck (n : Nat) (v : Option String) : Option String × List Diag :=
  let p := toPriority v
  (p,
   if p = Option.none ∧ v ≠ Option.none then
     [mkDiag n "priority" "invalid_priority"
        "priority must be one of critical, high, medium, low." (cellVal v)]
   else [])

/-- One boolean flag: unrecognized non-null text degrades to a warning and
the stored value becomes `None`. -/
def boolCheck (n : Nat) (name : String) (v : Option String) : Option Bool × List Diag :=
  let parsed := toBool v
  (parsed,
   if parsed = Option.none ∧ v ≠ Option.none then
     [mkDiag n name "invalid_bool" (name ++ " should be true/false; value ignored.") (cellVal v)]
   else [])

/-- One required-field check. -/
def reqErr (n : Nat) (name : String) (valueIsNone : Bool) : List Diag :=
  if valueIsNone then [mkDiag n name "missing_required" (name ++ " is required.") .none] else []

/-- The required-field sweep, in `REQUIRED_FIELDS` order. -/
def requiredErrors (n : Nat) (r : NRow) : List Diag :=
  reqErr n "shipment_id" r.shipment_id.isNone ++
  reqErr n "order_id" r.order_id.isNone ++
  reqErr n "origin_name" r.origin_name.isNone ++
  reqErr n "destination_name" r.destination_name.isNone ++
  reqErr n "origin_country" r.origin_country.isNone ++
  reqErr n "destination_country" r.destination_country.isNone ++
  reqErr n "planned_departure_ts" r.planned_departure_ts.isNone ++
  reqErr n "planned_arrival_ts" r.planned_arrival_ts.isNone ++
  reqErr n "mode" r.mode.isNone ++
  reqErr n "weight_kg" r.weight_kg.isNone ++
  reqErr n "volume_cbm" r.volume_cbm.isNone ++
  reqErr n "cost_usd" r.cost_usd.isNone ++
  reqErr n "priority" r.priority.isNone

/-- The normalized mapping after every per-field step, assembled from the
post-derivation text row `t`. -/
def builtRow (t : TRow) (n : Nat) : NRow :=
  { shipment_id := t.shipment_id
    order_id := t.order_id
    origin_name := t.origin_name
    destination_name := t.destination_name
    origin_country := t.origin_country
    destination_country := t.destination_country
    planned_departure_ts := (dtCheck n "planned_departure_ts" t.planned_departure_ts).1
    planned_arrival_ts := (dtCheck n "planned_arrival_ts" t.planned_arrival_ts).1
    mode := (modeCheck n t.mode).1
    weight_kg := (numCheck n "weight_kg" t.weight_kg).1
    volume_cbm := (numCheck n "volume_cbm" t.volume_cbm).1
    cost_usd := (numCheck n "cost_usd" t.cost_usd).1
    priority := (prioCheck n t.priority).1
    carrier_name := t.carrier_name
    incoterm := t.incoterm
    commodity := t.commodity
    container_type := t.container_type
    hazmat_flag := (boolCheck n "hazmat_flag" t.hazmat_flag).1
    temperature_control_flag := (boolCheck n "temperature_control_flag" t.temperature_control_flag).1 }

/-- The error list of a row, in the exact order the source appends:
numeric fields, timestamp fields, the cross-field check, mode, priority,
then the required-field sweep. -/
def rowErrors (t : TRow) (n : Nat) (crossErrs : List Diag) : List Diag :=
  (numCheck n "weight_kg" t.weight_kg).2 ++
  (numCheck n "volume_cbm" t.volume_cbm).2 ++
  (numCheck n "cost_usd" t.cost_usd).2 ++
  (dtCheck n "planned_departure_ts" t.planned_departure_ts).2 ++
  (dtCheck n "planned_arrival_ts" t.planned_arrival_ts).2 ++
  crossErrs ++
  (modeCheck n t.mode).2 ++
  (prioCheck n t.priority).2 ++
  requiredErrors n (builtRow t n)

/-- The warning list of a row: the derivation warning first, then the two
boolean flags. -/
def rowWarnings (t0 : TRow) (t : TRow) (n : Nat) : List Diag :=
  (stepDerived t0 n).2 ++
  (boolCheck n "hazmat_flag" t.hazmat_flag).2 ++
  (boolCheck n "temperature_control_flag" t.temperature_control_flag).2

/-- `_normalize_row` after the text pass: the numeric, timestamp,
cross-field, mode, priority, boolean and required steps, in source order;
the cross-field check can raise. -/
def normalizeFromText (t0 : TRow) (n : Nat) : Except PyExn (Option NRow × List Diag × List Diag) :=
  let t := (stepDerived t0 n).1
  match crossCheck n (dtCheck n "planned_departure_ts" t.planned_departure_ts).1
      (dtCheck n "planned_arrival_ts" t.planned_arrival_ts).1 with
  | .error e => .error e
  | .ok crossErrs =>
    let errors := rowErrors t n crossErrs
    let warnings := rowWarnings t0 t n
    if errors = [] then .ok (some (builtRow t n), [], warnings)
    else .ok (Option.none, errors, warnings)

/-- `_normalize_row`. -/
def normalizeRow (row : RawRow) (n : Nat) : Except PyExn (Option NRow × List Diag × List Diag) :=
  normalizeFromText (step1 row) n

/-! ### The batch normalizer -/

/-- The configuration the core consumes. -/
structure Settings where
  normalization_max_errors : Int
  deriving Repr, DecidableEq

/-- The upload-store record fields `normalize_upload` reads. -/
structure Upload where
  original_filename : String
  stored_filename : String
  stored_path : String
  file_hash : String
  deriving Repr, DecidableEq

/-- The stored CSV, as the `csv.DictReader` collaborator presents it:
`fieldnames` is `None` for an empty file, and each data row is a mapping
from header name to cell. -/
structure CsvData where
  fieldnames : Option (List String)
  rows : List RawRow
  deriving Repr, DecidableEq

/-- The last `/`-separated segment of a path string. -/
def lastSegment : List Char → List Char → List Char
  | [], acc => acc.reverse
  | c :: rest, acc => if c = '/' then lastSegment rest [] else lastSegment rest (c :: acc)

/-- `pathlib.Path(name).suffix`: the substring of the basename from its
last dot, provided that dot is neither the first nor the last character. -/
def pathSuffix (name : String) : String :=
  let base := lastSegment name.data []
  let rd := base.reverse
  let after := rd.takeWhile (· ≠ '.')
  if after.length = rd.length then ""
  else if after.length = 0 then ""
  else if rd.length ≥ after.length + 2 then String.mk ('.' :: after.reverse) else ""

/-- A terminal input error (`HTTPException` in the source). -/
inductive TerminalError where
  | unsupportedFormat
  | storedFileMissing
  | headerMissing
  | noDataRows
  deriving Repr, DecidableEq

/-- Everything that can abort `normalize_upload`: a terminal input error
or a Python exception escaping `_normalize_row`. -/
inductive RunError where
  | http (e : TerminalError)
  | exn (e : PyExn)
  deriving Repr, DecidableEq

/-- A quarantine record: row number, the raw row verbatim, its errors. -/
structure QRow where
  row_number : Nat
  raw : RawRow
  errors : List Diag
  deriving Repr, DecidableEq

/-- The accumulator of the row loop. -/
structure LoopState where
  valid : List NRow
  invalid : List QRow
  errs : List Diag
  warns : List Diag
  limitReached : Bool
  deriving Repr, DecidableEq

/-- The initial loop state. -/
def initState : LoopState := ⟨[], [], [], [], false⟩

/-- Append one row's errors item by item: each item is kept while the
global list is below the limit, otherwise only `error_limit_reached` is
set. -/
def addErrorItems (limit : Int) (st : LoopState) (items : List Diag) : LoopState :=
  items.foldl
    (fun st e =>
      if (st.errs.length : Int) < limit then { st with errs := st.errs ++ [e] }
      else { st with limitReached := true })
    st

/-- Append one row's warnings, truncated to the room left under the same
limit, and only while the list is below the limit. -/
def addWarnItems (limit : Int) (st : LoopState) (items : List Diag) : LoopState :=
  if (st.warns.length : Int) < limit then
    { st with warns := st.warns ++ items.take (max 0 (limit - st.warns.length)).toNat }
  else st

/-- One iteration of the row loop: push the normalized row into the valid
set when present, the quarantine record when errors exist, then the capped
error and warning appends. -/
def stepState (limit : Int) (st : LoopState) (n : Nat) (row : RawRow)
    (norm : Option NRow) (errs warns : List Diag) : LoopState :=
  let st1 :=
    match norm with
    | some nr => { st with valid := st.valid ++ [nr] }
    | Option.none => st
  let st2 :=
    if errs ≠ [] then { st1 with invalid := st1.invalid ++ [⟨n, row, errs⟩] } else st1
  addWarnItems limit (addErrorItems limit st2 errs) warns

/-- The body of the row loop of `normalize_upload`, rows numbered from 2. -/
def processRows (limit : Int) : List RawRow → Nat → LoopState → Except PyExn LoopState
  | [], _, st => .ok st
  | row :: rest, n, st =>
    match normalizeRow row n with
    | .error e => .error e
    | .ok res => processRows limit rest (n + 1) (stepState limit st n row res.1 res.2.1 res.2.2)

/-- The `totals` object of the report. -/
structure Totals where
  rows_total : Nat
  rows_valid : Nat
  rows_invalid : Nat
  error_count : Nat
  warning_count : Nat
  error_limit_reached : Bool
  deriving Repr, DecidableEq

/-- The normalization report (artifact paths omitted: the sink assigns
them outside the core's data flow). -/
structure Report where
  upload_id : String
  processed_at : String
  original_filename : String
  stored_filename : String
  stored_path : String
  file_hash : String
  totals : Totals
  sample_normalized_rows : List NRow
  errors : List Diag
  warnings : List Diag
  deriving Repr, DecidableEq

/-- The summary written into the upload store's manifest. -/
structure Summary where
  status : String
  processed_at : String
  rows_total : Nat
  rows_valid : Nat
  rows_invalid : Nat
  deriving Repr, DecidableEq

/-- One observable side effect of a successful run, in program order:
silver artifact, quarantine artifact, report artifact, manifest update.
An aborted run performs none (the error value carries no writes). -/
inductive WriteOp where
  | silver (processed_at : String) (rows : List NRow)
  | quarantine (processed_at : String) (rows : List QRow)
  | reportDoc (r : Report)
  | manifestUpdate (s : Summary)
  deriving Repr, DecidableEq

/-- Python truthiness of `reader.fieldnames` (`None` or `[]` are falsy). -/
def fieldnamesTruthy : Option (List String) → Bool
  | Option.none => false
  | some l => l ≠ []

/-- `effective_error_limit = max(1, min(max_errors, settings.normalization_max_errors))`. -/
def effectiveErrorLimit (settings : Settings) (maxErrors : Int) : Int :=
  max 1 (min maxErrors settings.normalization_max_errors)

/-- The input checks and row loop of `normalize_upload` (everything before
the timestamped report construction): extension gate, stored-file check,
header check, the row loop, and the zero-data-rows check. `file` is
`none` when no file exists at the stored path. -/
def runCoreCsv (settings : Settings) (csv : CsvData) (maxErrors : Int) :
    Except RunError LoopState :=
  if ¬ fieldnamesTruthy csv.fieldnames then .error (.http .headerMissing)
  else
    match processRows (effectiveErrorLimit settings maxErrors) csv.rows 2 initState with
    | .error e => .error (.exn e)
    | .ok st =>
      if st.valid.length + st.invalid.length = 0 then .error (.http .noDataRows)
      else .ok st

def runCore (settings : Settings) (upload : Upload) (file : Option CsvData)
    (maxErrors : Int) : Except RunError LoopState :=
  if pyLower (pathSuffix upload.stored_filename) ≠ ".csv" then .error (.http .unsupportedFormat)
  else
    match file with
    | Option.none => .error (.http .storedFileMissing)
    | some csv => runCoreCsv settings csv maxErrors

/-- `normalize_upload`: on success, the report and the four writes in
program order; `now` stands for `datetime.now(timezone.utc).isoformat()`. -/
def normalizeUpload (settings : Settings) (uploadId : String) (upload : Upload)
    (file : Option CsvData) (now : String) (maxErrors : Int) :
    Except RunError (Report × List WriteOp) :=
  match runCore settings upload file maxErrors with
  | .error e => .error e
  | .ok st =>
    let totals : Totals :=
      { rows_total := st.valid.length + st.invalid.length
        rows_valid := st.valid.length
        rows_invalid := st.invalid.length
        error_count := st.errs.length
        warning_count := st.warns.length
        error_limit_reached := st.limitReached }
    let report : Report :=
      { upload_id := uploadId, processed_at := now
        original_filename := upload.original_filename
        stored_filename := upload.stored_filename
        stored_path := upload.stored_path
        file_hash := upload.file_hash
        totals := totals
        sample_normalized_rows := st.valid.take 5
        errors := st.errs
        warnings := st.warns }
    .ok (report,
      [.silver now st.valid, .quarantine now st.invalid, .reportDoc report,
       .manifestUpdate
         { status := "completed", processed_at := now, rows_total := totals.rows_total
           rows_valid := totals.rows_valid, rows_invalid := totals.rows_invalid }])

/-! ### Specification-side counters used by the batch theorems -/

/-- The errors of a diagnostic list attributed to one field. -/
def errorsFor (field : String) (l : List Diag) : List Diag :=
  l.filter (fun d => d.field == field)

/-- How many rows of the list normalize with no errors (and hence a
normalized row), numbering from `n`. -/
def rowOkCount : List RawRow → Nat → Nat
  | [], _ => 0
  | row :: rest, n =>
    (match normalizeRow row n with
     | .ok (some _, _, _) => 1
     | _ => 0) + rowOkCount rest (n + 1)

/-- How many rows of the list normalize with at least one error. -/
def rowBadCount : List RawRow → Nat → Nat
  | [], _ => 0
  | row :: rest, n =>
    (match normalizeRow row n with
     | .ok (_, errs, _) => if errs ≠ [] then 1 else 0
     | _ => 0) + rowBadCount rest (n + 1)

/-- The total number of row errors across the list. -/
def rowErrTotal : List RawRow → Nat → Nat
  | [], _ => 0
  | row :: rest, n =>
    (match normalizeRow row n with
     | .ok (_, errs, _) => errs.length
     | _ => 0) + rowErrTotal rest (n + 1)

/-! ### Concrete example inputs used by the witnesses -/

/-- A raw row whose only flaw is a non-numeric `weight_kg`. -/
def exRowBadWeight : RawRow :=
  [("shipment_id", some "S1"), ("order_id", some "O1"), ("origin_name", some "A"),
   ("destination_name", some "B"), ("origin_country", some "cn"),
   ("destination_country", some "us"), ("planned_departure_ts", some "2024-01-01"),
   ("planned_arrival_ts", some "2024-01-02"), ("mode", some "air"), ("weight_kg", some "x"),
   ("volume_cbm", some "1"), ("cost_usd", some "2"), ("priority", some "low")]

/-- The single diagnostic `exRowBadWeight` yields. -/
def exDiagBadWeight : Diag :=
  mkDiag 2 "weight_kg" "invalid_number" "weight_kg must be numeric." (.str "x")

/-- The report of normalizing a one-row file holding `exRowBadWeight`. -/
def exReportBadWeight : Report :=
  { upload_id := "u", processed_at := "t", original_filename := "f.csv",
    stored_filename := "f.csv", stored_path := "/p", file_hash := "h",
    totals := ⟨1, 0, 1, 1, 0, false⟩, sample_normalized_rows := [],
    errors := [exDiagBadWeight], warnings := [] }

/-- The writes of that run, in program order. -/
def exOpsBadWeight : List WriteOp :=
  [.silver "t" [], .quarantine "t" [⟨2, exRowBadWeight, [exDiagBadWeight]⟩],
   .reportDoc exReportBadWeight, .manifestUpdate ⟨"completed", "t", 1, 0, 1⟩]

/-- Two timestamps that `_to_datetime` rejects but whose retained raw text
`datetime.fromisoformat` still accepts (any single character may separate
date and time), in reversed temporal order. -/
def exRowCrossRaw : RawRow :=
  [("planned_departure_ts", some "2024-01-05Z00:00"),
   ("planned_arrival_ts", some "2024-01-01Z00:00")]

/-- A row that is valid except for an unrecognized `mode`. -/
def exRowBadMode : RawRow :=
  [("shipment_id", some "S1"), ("order_id", some "O1"), ("origin_name", some "A"),
   ("destination_name", some "B"), ("origin_country", some "cn"),
   ("destination_country", some "us"), ("planned_departure_ts", some "2024-01-01"),
   ("planned_arrival_ts", some "2024-01-02"), ("mode", some "teleport"),
   ("weight_kg", some "1"), ("volume_cbm", some "1"), ("cost_usd", some "2"),
   ("priority", some "low")]

/-- A row that is valid except that `planned_arrival_ts` is unparseable
and `planned_departure_ts` is absent (so the cross-field check is
skipped). -/
def exRowBadArrival : RawRow :=
  [("shipment_id", some "S1"), ("order_id", some "O1"), ("origin_name", some "A"),
   ("destination_name", some "B"), ("origin_country", some "cn"),
   ("destination_country", some "us"), ("planned_arrival_ts", some "nope"),
   ("mode", some "air"), ("weight_kg", some "1"), ("volume_cbm", some "1"),
   ("cost_usd", some "2"), ("priority", some "low")]

/-- A fully valid row with a blank `shipment_id` and `order_id` `"X Y"`. -/
def exRowDerived : RawRow :=
  [("shipment_id", some "  "), ("order_id", some "X Y"), ("origin_name", some "A"),
   ("destination_name", some "B"), ("origin_country", some "cn"),
   ("destination_country", some "us"), ("planned_departure_ts", some "2024-01-01"),
   ("planned_arrival_ts", some "2024-01-02"), ("mode", some "air"),
   ("weight_kg", some "1"), ("volume_cbm", some "1"), ("cost_usd", some "2"),
   ("priority", some "low")]

/-! ### Helper lemmas -/

theorem normalizeFromText_ok_shape {t0 : TRow} {n : Nat}
    {out : Option NRow × List Diag × List Diag} (h : normalizeFromText t0 n = .ok out) :
    (out.1 = some (builtRow (stepDerived t0 n).1 n) ∧ out.2.1 = [] ∧
      out.2.2 = rowWarnings t0 (stepDerived t0 n).1 n ∧
      ∃ crossErrs, crossCheck n
          (dtCheck n "planned_departure_ts" (stepDerived t0 n).1.planned_departure_ts).1
          (dtCheck n "planned_arrival_ts" (stepDerived t0 n).1.planned_arrival_ts).1 = .ok crossErrs ∧
        rowErrors (stepDerived t0 n).1 n crossErrs = []) ∨
    (out.1 = Option.none ∧ out.2.1 ≠ [] ∧
      out.2.2 = rowWarnings t0 (stepDerived t0 n).1 n ∧
      ∃ crossErrs, crossCheck n
          (dtCheck n "planned_departure_ts" (stepDerived t0 n).1.planned_departure_ts).1
          (dtCheck n "planned_arrival_ts" (stepDerived t0 n).1.planned_arrival_ts).1 = .ok crossErrs ∧
        out.2.1 = rowErrors (stepDerived t0 n).1 n crossErrs) := by
  simp only [normalizeFromText] at h
  split at h
  · exact absurd h (by simp)
  · next crossErrs hc =>
    split at h
    · next hemp =>
      obtain rfl : (some (builtRow (stepDerived t0 n).1 n), ([] : List Diag),
          rowWarnings t0 (stepDerived t0 n).1 n) = out := by
        injection h
      exact Or.inl ⟨rfl, rfl, rfl, crossErrs, hc, hemp⟩
    · next hne =>
      obtain rfl : (Option.none, rowErrors (stepDerived t0 n).1 n crossErrs,
          rowWarnings t0 (stepDerived t0 n).1 n) = out := by
        injection h
      exact Or.inr ⟨rfl, hne, rfl, crossErrs, hc, rfl⟩

theorem numCheck_field {n : Nat} {name : String} {v : Option String} :
    ∀ d ∈ (numCheck n name v).2, d.field = name := by
  rcases htf : toFloat v with _ | f
  · cases v <;> simp [numCheck, htf, mkDiag]
  · cases hneg : f.isNegative <;> simp [numCheck, htf, hneg, mkDiag]

theorem dtCheck_field {n : Nat} {name : String} {v : Option String} :
    ∀ d ∈ (dtCheck n name v).2, d.field = name := by
  rcases htd : toDatetime v with _ | iso
  · cases v <;> simp [dtCheck, htd, mkDiag]
  · simp [dtCheck, htd]

theorem modeCheck_shape {n : Nat} {v : Option String} :
    ∀ d ∈ (modeCheck n v).2, d.field = "mode" ∧ d.code = "invalid_mode" := by
  by_cases hc : toMode v = Option.none ∧ v ≠ Option.none <;> simp [modeCheck, hc, mkDiag]

theorem prioCheck_shape {n : Nat} {v : Option String} :
    ∀ d ∈ (prioCheck n v).2, d.field = "priority" ∧ d.code = "invalid_priority" := by
  by_cases hc : toPriority v = Option.none ∧ v ≠ Option.none <;> simp [prioCheck, hc, mkDiag]

theorem crossCheck_ok_shape {n : Nat} {dep arr : Option String} {l : List Diag}
    (h : crossCheck n dep arr = .ok l) :
    ∀ d ∈ l, d.field = "planned_arrival_ts" ∧ d.code = "invalid_time_order" := by
  unfold crossCheck at h
  split at h
  · split at h
    · exact absurd h (by simp)
    · split at h
      · exact absurd h (by simp)
      · split at h
        · exact absurd h (by simp)
        · next gt _ =>
          obtain rfl : (if gt = true then
              [mkDiag n "planned_arrival_ts" "invalid_time_order"
                "planned_arrival_ts must be >= planned_departure_ts." .none] else []) = l := by
            injection h
          split <;> simp [mkDiag]
  · obtain rfl : ([] : List Diag) = l := by injection h
    simp

theorem boolCheck_code {n : Nat} {name : String} {v : Option String} :
    ∀ d ∈ (boolCheck n name v).2, d.code = "invalid_bool" := by
  by_cases hc : toBool v = Option.none ∧ v ≠ Option.none <;> simp [boolCheck, hc, mkDiag]

theorem errorsFor_append (f : String) (a b : List Diag) :
    errorsFor f (a ++ b) = errorsFor f a ++ errorsFor f b := by
  simp [errorsFor]

theorem errorsFor_eq_nil {f : String} {l : List Diag} (h : ∀ d ∈ l, d.field ≠ f) :
    errorsFor f l = [] := by
  simp only [errorsFor, List.filter_eq_nil_iff]
  intro d hd
  simpa using h d hd

theorem errorsFor_reqErr (f : String) (n : Nat) (name : String) (b : Bool) :
    errorsFor f (reqErr n name b) = if name = f then reqErr n name b else [] := by
  cases b <;> simp [errorsFor, reqErr, mkDiag] <;> split <;> simp_all

/-- `C1`: the claim is violated by the code. The cross-field temporal
check is guarded only by the truthiness of the stored values, and an
unparseable timestamp's raw text is retained and truthy, so
`datetime.fromisoformat` is invoked on it and raises `ValueError` out of
`_normalize_row` — diagnostics are not returned as data, and the check is
attempted although `planned_departure_ts` failed to parse. -/
theorem c1_cross_check_raises_on_unparseable_timestamp :
    normalizeRow
      [("planned_departure_ts", some "soon"), ("planned_arrival_ts", some "2024-01-02")] 2 =
      .error (.valueError "Invalid isoformat string: soon") ∧
    toDatetime (some "soon") = Option.none := by
  constructor <;> decide

/-- `C2` as stated is false: for the non-blank, unparseable input
`"abc"`, `_to_float` returns `None` — exactly the value it returns for
blank or absent input, not a distinct "unparseable" result. -/
theorem c2_counterexample_float_unparseable_equals_null :
    isBlank (some "abc") = false ∧ toFloat (some "abc") = Option.none ∧
    toFloat (some "abc") = toFloat Option.none := by
  refine ⟨by decide, by decide, by decide⟩

/-- `C2` (amended): for every non-blank text that does not parse as a
float, `_to_float` returns `None`, coinciding with the `None` returned
for blank/absent input; the distinction between "absent" and "present but
garbage" is made by the Row Normalizer, which retains the raw text and
emits `invalid_number` exactly when the coercion returned `None` on a
non-null stored value. -/
theorem c2_amended_unparseable_detected_via_retained_text :
    ∀ s : String, isBlank (some s) = false → toFloat (some s) = Option.none →
      (toFloat (some s) = toFloat Option.none ∧
       (∀ n name, numCheck n name (some s) =
          (.raw s, [mkDiag n name "invalid_number" (name ++ " must be numeric.") (.str s)])) ∧
       (∀ n name, numCheck n name Option.none = (.none, []))) := by
  intro s _ hunp
  refine ⟨?_, ?_, ?_⟩
  · rw [hunp]; rfl
  · intro n name; simp [numCheck, hunp]
  · intro n name; rfl

theorem c2_amended_witness :
    toFloat (some "abc") = toFloat Option.none ∧
    numCheck 2 "weight_kg" (some "abc") =
      (.raw "abc", [mkDiag 2 "weight_kg" "invalid_number" "weight_kg must be numeric." (.str "abc")]) ∧
    numCheck 2 "weight_kg" Option.none = (.none, []) := by
  obtain ⟨h1, h2, h3⟩ :=
    c2_amended_unparseable_detected_via_retained_text "abc" (by decide) (by decide)
  exact ⟨h1, h2 2 "weight_kg", h3 2 "weight_kg"⟩

/-- `C6`: a non-CSV stored extension, a missing CSV header, and zero data
rows each abort `normalize_upload` with a terminal error. The model's
success value alone carries the write operations, so an aborted run
writes none of the three artifacts and performs no upload-store
mutation. -/
theorem c6_terminal_errors_before_any_write :
    (∀ (settings : Settings) (uploadId : String) (upload : Upload) (file : Option CsvData)
        (now : String) (maxErrors : Int),
      pyLower (pathSuffix upload.stored_filename) ≠ ".csv" →
      normalizeUpload settings uploadId upload file now maxErrors =
        .error (.http .unsupportedFormat)) ∧
    (∀ (settings : Settings) (uploadId : String) (upload : Upload) (csv : CsvData)
        (now : String) (maxErrors : Int),
      pyLower (pathSuffix upload.stored_filename) = ".csv" →
      fieldnamesTruthy csv.fieldnames = false →
      normalizeUpload settings uploadId upload (some csv) now maxErrors =
        .error (.http .headerMissing)) ∧
    (∀ (settings : Settings) (uploadId : String) (upload : Upload) (fns : List String)
        (now : String) (maxErrors : Int),
      pyLower (pathSuffix upload.stored_filename) = ".csv" →
      fieldnamesTruthy (some fns) = true →
      normalizeUpload settings uploadId upload (some ⟨some fns, []⟩) now maxErrors =
        .error (.http .noDataRows)) := by
  refine ⟨?_, ?_, ?_⟩
  · intro settings uploadId upload file now maxErrors h
    have hrc : runCore settings upload file maxErrors = .error (.http .unsupportedFormat) := by
      unfold runCore
      rw [if_pos h]
    unfold normalizeUpload
    rw [hrc]
  · intro settings uploadId upload csv now maxErrors hext hfns
    have hrc : runCore settings upload (some csv) maxErrors = .error (.http .headerMissing) := by
      unfold runCore
      rw [if_neg (by simp [hext])]
      exact if_pos (by simp [hfns])
    unfold normalizeUpload
    rw [hrc]
  · intro settings uploadId upload fns now maxErrors hext hfns
    have hrc : runCore settings upload (some ⟨some fns, []⟩) maxErrors =
        .error (.http .noDataRows) := by
      unfold runCore
      rw [if_neg (by simp [hext])]
      exact if_neg (by simp [hfns])
    unfold normalizeUpload
    rw [hrc]

theorem c6_witness :
    normalizeUpload ⟨100⟩ "u" ⟨"a.xlsx", "a.xlsx", "/p", "h"⟩ none "t" 100 =
      .error (.http .unsupportedFormat) ∧
    normalizeUpload ⟨100⟩ "u" ⟨"a.csv", "a.csv", "/p", "h"⟩ (some ⟨none, []⟩) "t" 100 =
      .error (.http .headerMissing) ∧
    normalizeUpload ⟨100⟩ "u" ⟨"a.csv", "a.csv", "/p", "h"⟩ (some ⟨some ["shipment_id"], []⟩) "t" 100 =
      .error (.http .noDataRows) := by
  obtain ⟨h1, h2, h3⟩ := c6_terminal_errors_before_any_write
  exact ⟨h1 ⟨100⟩ "u" ⟨"a.xlsx", "a.xlsx", "/p", "h"⟩ none "t" 100 (by decide),
    h2 ⟨100⟩ "u" ⟨"a.csv", "a.csv", "/p", "h"⟩ ⟨none, []⟩ "t" 100 (by decide) (by decide),
    h3 ⟨100⟩ "u" ⟨"a.csv", "a.csv", "/p", "h"⟩ ["shipment_id"] "t" 100 (by decide) (by decide)⟩

theorem rowLookup_factors (r : RawRow) :
    rowLookup r =
      (r.map (fun kv => (slugify kv.1, kv.2))).foldl (fun l kv => assocSet l kv.1 kv.2) [] := by
  unfold rowLookup
  rw [List.foldl_map]

theorem firstNonBlank_all_blank (l : List (String × Cell)) :
    ∀ cands : List String, (∀ a ∈ cands, isBlank (lookupGet l (slugify a))) →
      firstNonBlank l cands = Option.none := by
  intro cands
  induction cands with
  | nil => intro _; rfl
  | cons a rest ih =>
    intro h
    have ha : isBlank (lookupGet l (slugify a)) = true := h a (by simp)
    simp only [firstNonBlank, ha, if_pos]
    exact ih (fun b hb => h b (by simp [hb]))

/-- `C7`: alias resolution is case- and punctuation-insensitive (the
lookup depends on row keys only through their slugs), tries the canonical
field name first, skips blank candidates, returns absent when no
candidate matches, and the three column spellings of the example all
resolve to `order_id`. -/
theorem c7_alias_resolution :
    (slugify "Order ID" = "order_id" ∧ slugify "order-id" = "order_id" ∧
     slugify "order_id" = "order_id") ∧
    (∀ r1 r2 : RawRow,
      r1.map (fun kv => (slugify kv.1, kv.2)) = r2.map (fun kv => (slugify kv.1, kv.2)) →
      ∀ f, lookupField (rowLookup r1) f = lookupField (rowLookup r2) f) ∧
    (∀ (l : List (String × Cell)) (f : String),
      isBlank (lookupGet l (slugify f)) = false → lookupField l f = lookupGet l (slugify f)) ∧
    (∀ (l : List (String × Cell)) (f : String),
      (∀ a ∈ f :: (CANONICAL_FIELD_ALIASES.lookup f).getD [], isBlank (lookupGet l (slugify a))) →
      lookupField l f = Option.none) ∧
    (lookupField (rowLookup [("Order ID", some "A1")]) "order_id" = some "A1" ∧
     lookupField (rowLookup [("order-id", some "A1")]) "order_id" = some "A1" ∧
     lookupField (rowLookup [("order_id", some "A1")]) "order_id" = some "A1") := by
  refine ⟨by refine ⟨by decide, by decide, by decide⟩, ?_, ?_, ?_,
    by refine ⟨by decide, by decide, by decide⟩⟩
  · intro r1 r2 hmap f
    have h : rowLookup r1 = rowLookup r2 := by
      rw [rowLookup_factors, rowLookup_factors, hmap]
    rw [h]
  · intro l f h
    simp [lookupField, firstNonBlank, h]
  · intro l f h
    exact firstNonBlank_all_blank l _ h

theorem c7_witness :
    lookupField (rowLookup [("Order ID", some "A1")]) "order_id" =
      lookupField (rowLookup [("order-id", some "A1")]) "order_id" ∧
    lookupField (rowLookup [("Weight KG", some "7")]) "weight_kg" = some "7" ∧
    lookupField (rowLookup [("order_id", some "A1")]) "weight_kg" = Option.none := by
  obtain ⟨_, hinv, hfirst, hnone, _⟩ := c7_alias_resolution
  refine ⟨?_, ?_, ?_⟩
  · exact hinv [("Order ID", some "A1")] [("order-id", some "A1")] (by decide) "order_id"
  · have := hfirst (rowLookup [("Weight KG", some "7")]) "weight_kg"
    rw [this (by decide)]
    decide
  · exact hnone (rowLookup [("order_id", some "A1")]) "weight_kg" (by decide)

theorem addErrorItems_cons (limit : Int) (st : LoopState) (e : Diag) (rest : List Diag) :
    addErrorItems limit st (e :: rest) =
      addErrorItems limit
        (if (st.errs.length : Int) < limit then { st with errs := st.errs ++ [e] }
         else { st with limitReached := true }) rest := rfl

theorem addErrorItems_spec (limit : Int) (items : List Diag) :
    ∀ st : LoopState, (st.errs.length : Int) ≤ limit →
      ((addErrorItems limit st items).errs.length : Int) =
        min ((st.errs.length : Int) + items.length) limit ∧
      ((addErrorItems limit st items).limitReached = true ↔
        (st.limitReached = true ∨ limit < (st.errs.length : Int) + items.length)) ∧
      (addErrorItems limit st items).valid = st.valid ∧
      (addErrorItems limit st items).invalid = st.invalid ∧
      (addErrorItems limit st items).warns = st.warns := by
  induction items with
  | nil =>
    intro st h
    refine ⟨?_, ?_, rfl, rfl, rfl⟩
    · simp only [addErrorItems, List.foldl_nil, List.length_nil]
      omega
    · simp only [addErrorItems, List.foldl_nil, List.length_nil]
      constructor
      · exact fun hr => Or.inl hr
      · rintro (hr | hx)
        · exact hr
        · exact absurd hx (by omega)
  | cons e rest ih =>
    intro st h
    rw [addErrorItems_cons]
    by_cases hlt : (st.errs.length : Int) < limit
    · rw [if_pos hlt]
      obtain ⟨h1, h2, h3, h4, h5⟩ := ih { st with errs := st.errs ++ [e] } (by simp; omega)
      refine ⟨?_, ?_, h3, h4, h5⟩
      · rw [h1]; simp; omega
      · rw [h2]; simp; constructor
        · rintro (hr | hgt)
          · exact Or.inl hr
          · exact Or.inr (by omega)
        · rintro (hr | hgt)
          · exact Or.inl hr
          · exact Or.inr (by omega)
    · rw [if_neg hlt]
      have heq : (st.errs.length : Int) = limit := by omega
      obtain ⟨h1, h2, h3, h4, h5⟩ := ih { st with limitReached := true } (by simp; omega)
      refine ⟨?_, ?_, h3, h4, h5⟩
      · rw [h1]; simp; omega
      · rw [h2]; simp; omega

theorem addWarnItems_preserve (limit : Int) (st : LoopState) (items : List Diag) :
    (addWarnItems limit st items).valid = st.valid ∧
    (addWarnItems limit st items).invalid = st.invalid ∧
    (addWarnItems limit st items).errs = st.errs ∧
    (addWarnItems limit st items).limitReached = st.limitReached := by
  unfold addWarnItems
  split <;> simp

theorem addErrorItems_preserve (limit : Int) (items : List Diag) :
    ∀ st : LoopState, (addErrorItems limit st items).valid = st.valid ∧
      (addErrorItems limit st items).invalid = st.invalid := by
  induction items with
  | nil => intro st; exact ⟨rfl, rfl⟩
  | cons e rest ih =>
    intro st
    rw [addErrorItems_cons]
    by_cases hlt : (st.errs.length : Int) < limit
    · rw [if_pos hlt]; exact ih { st with errs := st.errs ++ [e] }
    · rw [if_neg hlt]; exact ih { st with limitReached := true }

theorem stepState_counts (limit : Int) (st : LoopState) (n : Nat) (row : RawRow)
    (norm : Option NRow) (errs warns : List Diag) :
    (stepState limit st n row norm errs warns).valid.length =
      st.valid.length + (match norm with | some _ => 1 | Option.none => 0) ∧
    (stepState limit st n row norm errs warns).invalid.length =
      st.invalid.length + (if errs ≠ [] then 1 else 0) := by
  have key : ∀ st2 : LoopState,
      (addWarnItems limit (addErrorItems limit st2 errs) warns).valid = st2.valid ∧
      (addWarnItems limit (addErrorItems limit st2 errs) warns).invalid = st2.invalid := by
    intro st2
    obtain ⟨e1, e2⟩ := addErrorItems_preserve limit errs st2
    obtain ⟨w1, w2, -, -⟩ := addWarnItems_preserve limit (addErrorItems limit st2 errs) warns
    exact ⟨w1.trans e1, w2.trans e2⟩
  cases norm with
  | none =>
    by_cases he : errs ≠ []
    · have hstep : stepState limit st n row Option.none errs warns =
          addWarnItems limit
            (addErrorItems limit { st with invalid := st.invalid ++ [⟨n, row, errs⟩] } errs) warns := by
        simp only [stepState, if_pos he]
      rw [hstep]
      obtain ⟨k1, k2⟩ := key { st with invalid := st.invalid ++ [⟨n, row, errs⟩] }
      exact ⟨by rw [k1]; simp, by rw [k2]; simp [he]⟩
    · have hstep : stepState limit st n row Option.none errs warns =
          addWarnItems limit (addErrorItems limit st errs) warns := by
        simp only [stepState, if_neg he]
      rw [hstep]
      obtain ⟨k1, k2⟩ := key st
      exact ⟨by rw [k1]; simp, by rw [k2]; simp [he]⟩
  | some nr =>
    by_cases he : errs ≠ []
    · have hstep : stepState limit st n row (some nr) errs warns =
          addWarnItems limit
            (addErrorItems limit
              { st with valid := st.valid ++ [nr], invalid := st.invalid ++ [⟨n, row, errs⟩] }
              errs) warns := by
        simp only [stepState, if_pos he]
      rw [hstep]
      obtain ⟨k1, k2⟩ :=
        key { st with valid := st.valid ++ [nr], invalid := st.invalid ++ [⟨n, row, errs⟩] }
      exact ⟨by rw [k1]; simp, by rw [k2]; simp [he]⟩
    · have hstep : stepState limit st n row (some nr) errs warns =
          addWarnItems limit (addErrorItems limit { st with valid := st.valid ++ [nr] } errs) warns := by
        simp only [stepState, if_neg he]
      rw [hstep]
      obtain ⟨k1, k2⟩ := key { st with valid := st.valid ++ [nr] }
      exact ⟨by rw [k1]; simp, by rw [k2]; simp [he]⟩

theorem capTail_spec (limit : Int) (errs warns : List Diag) (st2 : LoopState)
    (h : (st2.errs.length : Int) ≤ limit) :
    (addWarnItems limit (addErrorItems limit st2 errs) warns).valid = st2.valid ∧
    (addWarnItems limit (addErrorItems limit st2 errs) warns).invalid = st2.invalid ∧
    ((addWarnItems limit (addErrorItems limit st2 errs) warns).errs.length : Int) =
      min ((st2.errs.length : Int) + errs.length) limit ∧
    ((addWarnItems limit (addErrorItems limit st2 errs) warns).limitReached = true ↔
      (st2.limitReached = true ∨ limit < (st2.errs.length : Int) + errs.length)) := by
  obtain ⟨e1, e2, e3, e4, e5⟩ := addErrorItems_spec limit errs st2 h
  obtain ⟨w1, w2, w3, w4⟩ := addWarnItems_preserve limit (addErrorItems limit st2 errs) warns
  refine ⟨w1.trans e3, w2.trans e4, ?_, ?_⟩
  · rw [w3, e1]
  · rw [w4]; exact e2

theorem stepState_spec (limit : Int) (st : LoopState) (n : Nat) (row : RawRow)
    (norm : Option NRow) (errs warns : List Diag) (h : (st.errs.length : Int) ≤ limit) :
    (stepState limit st n row norm errs warns).valid.length =
      st.valid.length + (match norm with | some _ => 1 | Option.none => 0) ∧
    (stepState limit st n row norm errs warns).invalid.length =
      st.invalid.length + (if errs ≠ [] then 1 else 0) ∧
    ((stepState limit st n row norm errs warns).errs.length : Int) =
      min ((st.errs.length : Int) + errs.length) limit ∧
    ((stepState limit st n row norm errs warns).limitReached = true ↔
      (st.limitReached = true ∨ limit < (st.errs.length : Int) + errs.length)) := by
  cases norm with
  | none =>
    by_cases he : errs ≠ []
    · have hstep : stepState limit st n row Option.none errs warns =
          addWarnItems limit
            (addErrorItems limit { st with invalid := st.invalid ++ [⟨n, row, errs⟩] } errs) warns := by
        simp only [stepState, if_pos he]
      rw [hstep]
      obtain ⟨f1, f2, f3, f4⟩ :=
        capTail_spec limit errs warns { st with invalid := st.invalid ++ [⟨n, row, errs⟩] } h
      refine ⟨by rw [f1]; simp, by rw [f2]; simp [he], f3, f4⟩
    · have hstep : stepState limit st n row Option.none errs warns =
          addWarnItems limit (addErrorItems limit st errs) warns := by
        simp only [stepState, if_neg he]
      rw [hstep]
      obtain ⟨f1, f2, f3, f4⟩ := capTail_spec limit errs warns st h
      refine ⟨by rw [f1]; simp, by rw [f2]; simp [he], f3, f4⟩
  | some nr =>
    by_cases he : errs ≠ []
    · have hstep : stepState limit st n row (some nr) errs warns =
          addWarnItems limit
            (addErrorItems limit
              { st with valid := st.valid ++ [nr], invalid := st.invalid ++ [⟨n, row, errs⟩] }
              errs) warns := by
        simp only [stepState, if_pos he]
      rw [hstep]
      obtain ⟨f1, f2, f3, f4⟩ :=
        capTail_spec limit errs warns
          { st with valid := st.valid ++ [nr], invalid := st.invalid ++ [⟨n, row, errs⟩] } h
      refine ⟨by rw [f1]; simp, by rw [f2]; simp [he], f3, f4⟩
    · have hstep : stepState limit st n row (some nr) errs warns =
          addWarnItems limit (addErrorItems limit { st with valid := st.valid ++ [nr] } errs) warns := by
        simp only [stepState, if_neg he]
      rw [hstep]
      obtain ⟨f1, f2, f3, f4⟩ :=
        capTail_spec limit errs warns { st with valid := st.valid ++ [nr] } h
      refine ⟨by rw [f1]; simp, by rw [f2]; simp [he], f3, f4⟩

theorem min_add_min (a b c L : Int) (hc : 0 ≤ c) :
    min (min (a + b) L + c) L = min (a + (b + c)) L := by
  rcases le_total (a + b) L with h | h
  · rw [min_eq_left h, add_assoc]
  · rw [min_eq_right h]
    have h1 : L ≤ L + c := by omega
    have h2 : L ≤ a + (b + c) := by omega
    rw [min_eq_right h1, min_eq_right h2]

theorem cap_reached_step (P : Prop) (L a b c : Int) (hc : 0 ≤ c) :
    ((P ∨ L < a + b) ∨ L < min (a + b) L + c) ↔ (P ∨ L < a + (b + c)) := by
  rcases le_total (a + b) L with h | h
  · rw [min_eq_left h]
    constructor
    · rintro ((hp | hx) | hx)
      · exact Or.inl hp
      · exact Or.inr (by omega)
      · exact Or.inr (by omega)
    · rintro (hp | hx)
      · exact Or.inl (Or.inl hp)
      · exact Or.inr (by omega)
  · rw [min_eq_right h]
    constructor
    · rintro ((hp | hx) | hx)
      · exact Or.inl hp
      · exact Or.inr (by omega)
      · exact Or.inr (by omega)
    · rintro (hp | hx)
      · exact Or.inl (Or.inl hp)
      · by_cases hm : L < a + b
        · exact Or.inl (Or.inr hm)
        · exact Or.inr (by omega)

theorem processRows_cons_eq (limit : Int) (row : RawRow) (rest : List RawRow) (n : Nat)
    (st : LoopState) :
    processRows limit (row :: rest) n st =
      match normalizeRow row n with
      | .error e => .error e
      | .ok res => processRows limit rest (n + 1) (stepState limit st n row res.1 res.2.1 res.2.2) :=
  rfl

theorem processRows_ok_spec (limit : Int) (rows : List RawRow) :
    ∀ (n : Nat) (st st' : LoopState), processRows limit rows n st = .ok st' →
      (st.errs.length : Int) ≤ limit →
      st'.valid.length = st.valid.length + rowOkCount rows n ∧
      st'.invalid.length = st.invalid.length + rowBadCount rows n ∧
      ((st'.errs.length : Int) = min ((st.errs.length : Int) + rowErrTotal rows n) limit) ∧
      (st'.limitReached = true ↔
        (st.limitReached = true ∨ limit < (st.errs.length : Int) + rowErrTotal rows n)) := by
  induction rows with
  | nil =>
    intro n st st' h hle
    obtain rfl : st = st' := by injection h
    refine ⟨by simp [rowOkCount], by simp [rowBadCount], ?_, ?_⟩ <;>
      simp [rowErrTotal] <;> omega
  | cons row rest ih =>
    intro n st st' h hle
    rw [processRows_cons_eq] at h
    rcases hnr : normalizeRow row n with e | res
    · rw [hnr] at h; exact absurd h (by simp)
    · rw [hnr] at h
      obtain ⟨hs1, hs2, hs3, hs4⟩ := stepState_spec limit st n row res.1 res.2.1 res.2.2 hle
      have hle' : ((stepState limit st n row res.1 res.2.1 res.2.2).errs.length : Int) ≤ limit := by
        rw [hs3]; omega
      obtain ⟨g1, g2, g3, g4⟩ := ih (n + 1) _ st' h hle'
      refine ⟨?_, ?_, ?_, ?_⟩
      · rw [g1, hs1]
        simp only [rowOkCount, hnr]
        rcases res with ⟨norm, errs, warns⟩
        cases norm <;> simp <;> omega
      · rw [g2, hs2]
        simp only [rowBadCount, hnr]
        rcases res with ⟨norm, errs, warns⟩
        by_cases he : errs ≠ [] <;> simp_all <;> omega
      · rw [g3, hs3]
        simp only [rowErrTotal, hnr]
        push_cast
        exact min_add_min _ _ _ _ (Int.natCast_nonneg _)
      · rw [g4, hs4, hs3]
        simp only [rowErrTotal, hnr]
        push_cast
        exact cap_reached_step _ _ _ _ _ (Int.natCast_nonneg _)

theorem processRows_total (limit : Int) (rows : List RawRow) :
    ∀ (n : Nat) (st st' : LoopState), processRows limit rows n st = .ok st' →
      st'.valid.length + st'.invalid.length = st.valid.length + st.invalid.length + rows.length := by
  induction rows with
  | nil =>
    intro n st st' h
    obtain rfl : st = st' := by injection h
    simp
  | cons row rest ih =>
    intro n st st' h
    rw [processRows_cons_eq] at h
    rcases hnr : normalizeRow row n with e | res
    · rw [hnr] at h; exact absurd h (by simp)
    · rw [hnr] at h
      have hshape := @normalizeFromText_ok_shape (step1 row) n res hnr
      have hone : (match res.1 with | some _ => 1 | Option.none => 0) +
          (if res.2.1 ≠ [] then 1 else 0) = 1 := by
        rcases hshape with ⟨h1, h2, _⟩ | ⟨h1, h2, _⟩ <;> rw [h1] <;> simp [h2]
      obtain ⟨hs1, hs2⟩ := stepState_counts limit st n row res.1 res.2.1 res.2.2
      have := ih (n + 1) _ st' h
      rw [this, hs1, hs2]
      simp only [List.length_cons]
      omega

theorem runCore_ok_inv {settings : Settings} {upload : Upload} {file : Option CsvData}
    {maxErrors : Int} {st : LoopState} (h : runCore settings upload file maxErrors = .ok st) :
    ∃ csv, file = some csv ∧
      processRows (effectiveErrorLimit settings maxErrors) csv.rows 2 initState = .ok st ∧
      st.valid.length + st.invalid.length ≠ 0 := by
  unfold runCore at h
  split at h
  · exact absurd h (by simp)
  · cases file with
    | none => exact absurd h (by simp)
    | some csv =>
      dsimp only at h
      refine ⟨csv, rfl, ?_⟩
      unfold runCoreCsv at h
      split at h
      · exact absurd h (by simp)
      · split at h
        · exact absurd h (by simp)
        · next st0 hp =>
          split at h
          · exact absurd h (by simp)
          · next hnz =>
            obtain rfl : st0 = st := by injection h
            exact ⟨hp, hnz⟩

theorem normalizeUpload_ok_inv {settings : Settings} {uploadId : String} {upload : Upload}
    {file : Option CsvData} {now : String} {maxErrors : Int} {rep : Report} {ops : List WriteOp}
    (h : normalizeUpload settings uploadId upload file now maxErrors = .ok (rep, ops)) :
    ∃ st, runCore settings upload file maxErrors = .ok st ∧
      rep.totals = ⟨st.valid.length + st.invalid.length, st.valid.length, st.invalid.length,
        st.errs.length, st.warns.length, st.limitReached⟩ ∧
      rep.sample_normalized_rows = st.valid.take 5 ∧
      rep.errors = st.errs ∧ rep.warnings = st.warns := by
  unfold normalizeUpload at h
  split at h
  · exact absurd h (by simp)
  · next st hrc =>
    refine ⟨st, hrc, ?_⟩
    injection h with h'
    rw [Prod.mk.injEq] at h'
    obtain ⟨h1, -⟩ := h'
    rw [← h1]
    exact ⟨rfl, rfl, rfl, rfl⟩

/-- `C3`: a row that collects at least one error is returned with a null
normalized row, and `normalize_upload` counts as valid exactly the rows
whose normalization produced no error — a row with a single invalid field
never reaches the valid set. -/
theorem c3_all_or_nothing :
    (∀ (row : RawRow) (n : Nat) (out : Option NRow × List Diag × List Diag),
      normalizeRow row n = .ok out → out.2.1 ≠ [] → out.1 = Option.none) ∧
    (∀ (settings : Settings) (uploadId : String) (upload : Upload) (csv : CsvData)
        (now : String) (maxErrors : Int) (rep : Report) (ops : List WriteOp),
      normalizeUpload settings uploadId upload (some csv) now maxErrors = .ok (rep, ops) →
      rep.totals.rows_valid = rowOkCount csv.rows 2) := by
  constructor
  · intro row n out h hne
    rcases @normalizeFromText_ok_shape (step1 row) n out h with ⟨_, h2, _⟩ | ⟨h1, _, _⟩
    · exact absurd h2 hne
    · exact h1
  · intro settings uploadId upload csv now maxErrors rep ops h
    obtain ⟨st, hrc, htot, -, -, -⟩ := normalizeUpload_ok_inv h
    obtain ⟨csv', hfile, hp, -⟩ := runCore_ok_inv hrc
    obtain rfl : csv = csv' := by injection hfile
    obtain ⟨h1, -, -, -⟩ :=
      processRows_ok_spec (effectiveErrorLimit settings maxErrors) csv.rows 2 initState st hp
        (by simp [initState, effectiveErrorLimit])
    rw [htot]
    simpa [initState] using h1

/-- `C4`: with `k = max(1, min(maxErrors, configured ceiling))`, a
successful report's `errors` array never exceeds `k` entries,
`error_limit_reached` is set exactly when the true error count across all
rows exceeds `k`, and `rows_invalid` counts every row owning an error
regardless of the cap. -/
theorem c4_error_cap :
    ∀ (settings : Settings) (uploadId : String) (upload : Upload) (csv : CsvData)
      (now : String) (maxErrors : Int) (rep : Report) (ops : List WriteOp),
      normalizeUpload settings uploadId upload (some csv) now maxErrors = .ok (rep, ops) →
      effectiveErrorLimit settings maxErrors = max 1 (min maxErrors settings.normalization_max_errors) ∧
      (rep.errors.length : Int) ≤ effectiveErrorLimit settings maxErrors ∧
      (rep.totals.error_limit_reached = true ↔
        effectiveErrorLimit settings maxErrors < (rowErrTotal csv.rows 2 : Int)) ∧
      rep.totals.rows_invalid = rowBadCount csv.rows 2 := by
  intro settings uploadId upload csv now maxErrors rep ops h
  obtain ⟨st, hrc, htot, -, herr, -⟩ := normalizeUpload_ok_inv h
  obtain ⟨csv', hfile, hp, -⟩ := runCore_ok_inv hrc
  obtain rfl : csv = csv' := by injection hfile
  obtain ⟨-, h2, h3, h4⟩ :=
    processRows_ok_spec (effectiveErrorLimit settings maxErrors) csv.rows 2 initState st hp
      (by simp [initState, effectiveErrorLimit])
  refine ⟨rfl, ?_, ?_, ?_⟩
  · rw [herr, h3]
    simp [initState]
  · rw [htot]
    simp only
    rw [h4]
    simp [initState]
  · rw [htot]
    simpa [initState] using h2

/-- `C8`: normalization is deterministic over the stored content and
configuration — the run timestamp is the only varying input, and two runs
with different timestamps produce identical totals and identical sample
rows (and identical success/failure outcomes). -/
theorem c8_deterministic_totals :
    ∀ (settings : Settings) (uploadId : String) (upload : Upload) (file : Option CsvData)
      (maxErrors : Int) (now1 now2 : String),
      (normalizeUpload settings uploadId upload file now1 maxErrors).map
          (fun out => ((out.1).totals, (out.1).sample_normalized_rows)) =
      (normalizeUpload settings uploadId upload file now2 maxErrors).map
          (fun out => ((out.1).totals, (out.1).sample_normalized_rows)) := by
  intro settings uploadId upload file maxErrors now1 now2
  unfold normalizeUpload
  cases runCore settings upload file maxErrors <;> rfl

/-- `C10`: a returned row is normalized exactly when its error list is
empty, so each data row of a successful run lands in exactly one of the
valid and invalid sets and the totals satisfy
`rows_valid + rows_invalid = rows_total = number of data rows`. -/
theorem c10_partition :
    (∀ (row : RawRow) (n : Nat) (out : Option NRow × List Diag × List Diag),
      normalizeRow row n = .ok out → (out.1 ≠ Option.none ↔ out.2.1 = [])) ∧
    (∀ (settings : Settings) (uploadId : String) (upload : Upload) (csv : CsvData)
        (now : String) (maxErrors : Int) (rep : Report) (ops : List WriteOp),
      normalizeUpload settings uploadId upload (some csv) now maxErrors = .ok (rep, ops) →
      rep.totals.rows_valid + rep.totals.rows_invalid = rep.totals.rows_total ∧
      rep.totals.rows_total = csv.rows.length) := by
  constructor
  · intro row n out h
    rcases @normalizeFromText_ok_shape (step1 row) n out h with ⟨h1, h2, _⟩ | ⟨h1, h2, _⟩
    · constructor
      · intro _; exact h2
      · intro _; rw [h1]; simp
    · constructor
      · intro hns; exact absurd h1 hns
      · intro he; exact absurd he h2
  · intro settings uploadId upload csv now maxErrors rep ops h
    obtain ⟨st, hrc, htot, -, -, -⟩ := normalizeUpload_ok_inv h
    obtain ⟨csv', hfile, hp, -⟩ := runCore_ok_inv hrc
    obtain rfl : csv = csv' := by injection hfile
    have htotal := processRows_total (effectiveErrorLimit settings maxErrors) csv.rows 2 initState st hp
    rw [htot]
    refine ⟨rfl, ?_⟩
    simpa [initState] using htotal

theorem c3_witness :
    exReportBadWeight.totals.rows_valid = rowOkCount [exRowBadWeight] 2 ∧
    ((Option.none : Option NRow), [exDiagBadWeight], ([] : List Diag)).1 = Option.none :=
  ⟨c3_all_or_nothing.2 ⟨100⟩ "u" ⟨"f.csv", "f.csv", "/p", "h"⟩ ⟨some ["c"], [exRowBadWeight]⟩
      "t" 100 exReportBadWeight exOpsBadWeight (by decide),
   c3_all_or_nothing.1 exRowBadWeight 2 (Option.none, [exDiagBadWeight], []) (by decide)
      (by decide)⟩

theorem c4_witness :
    effectiveErrorLimit ⟨100⟩ 100 = max 1 (min 100 100) ∧
    ((exReportBadWeight.errors.length : Int) ≤ effectiveErrorLimit ⟨100⟩ 100) ∧
    (exReportBadWeight.totals.error_limit_reached = true ↔
      effectiveErrorLimit ⟨100⟩ 100 < (rowErrTotal [exRowBadWeight] 2 : Int)) ∧
    exReportBadWeight.totals.rows_invalid = rowBadCount [exRowBadWeight] 2 :=
  c4_error_cap ⟨100⟩ "u" ⟨"f.csv", "f.csv", "/p", "h"⟩ ⟨some ["c"], [exRowBadWeight]⟩ "t" 100
    exReportBadWeight exOpsBadWeight (by decide)

theorem c10_witness :
    (exReportBadWeight.totals.rows_valid + exReportBadWeight.totals.rows_invalid =
        exReportBadWeight.totals.rows_total ∧
      exReportBadWeight.totals.rows_total = ([exRowBadWeight] : List RawRow).length) ∧
    (((Option.none : Option NRow), [exDiagBadWeight], ([] : List Diag)).1 ≠ Option.none ↔
      ([exDiagBadWeight] : List Diag) = []) :=
  ⟨c10_partition.2 ⟨100⟩ "u" ⟨"f.csv", "f.csv", "/p", "h"⟩ ⟨some ["c"], [exRowBadWeight]⟩
      "t" 100 exReportBadWeight exOpsBadWeight (by decide),
   c10_partition.1 exRowBadWeight 2 (Option.none, [exDiagBadWeight], []) (by decide)⟩

theorem stepDerived_preserves (t0 : TRow) (n : Nat) :
    (stepDerived t0 n).1.order_id = t0.order_id ∧
    (stepDerived t0 n).1.mode = t0.mode ∧
    (stepDerived t0 n).1.priority = t0.priority ∧
    (stepDerived t0 n).1.weight_kg = t0.weight_kg ∧
    (stepDerived t0 n).1.volume_cbm = t0.volume_cbm ∧
    (stepDerived t0 n).1.cost_usd = t0.cost_usd ∧
    (stepDerived t0 n).1.planned_departure_ts = t0.planned_departure_ts ∧
    (stepDerived t0 n).1.planned_arrival_ts = t0.planned_arrival_ts := by
  unfold stepDerived
  split <;> exact ⟨rfl, rfl, rfl, rfl, rfl, rfl, rfl, rfl⟩

theorem errorsFor_eq_self {f : String} {l : List Diag} (h : ∀ d ∈ l, d.field = f) :
    errorsFor f l = l := by
  simp only [errorsFor, List.filter_eq_self]
  intro d hd
  simp [h d hd]

theorem errorsFor_numCheck_ne (f : String) (n : Nat) (name : String) (v : Option String)
    (h : name ≠ f) : errorsFor f (numCheck n name v).2 = [] :=
  errorsFor_eq_nil (fun d hd => by rw [numCheck_field d hd]; exact h)

theorem errorsFor_dtCheck_ne (f : String) (n : Nat) (name : String) (v : Option String)
    (h : name ≠ f) : errorsFor f (dtCheck n name v).2 = [] :=
  errorsFor_eq_nil (fun d hd => by rw [dtCheck_field d hd]; exact h)

theorem errorsFor_modeCheck_ne (f : String) (n : Nat) (v : Option String)
    (h : "mode" ≠ f) : errorsFor f (modeCheck n v).2 = [] :=
  errorsFor_eq_nil (fun d hd => by rw [(modeCheck_shape d hd).1]; exact h)

theorem errorsFor_prioCheck_ne (f : String) (n : Nat) (v : Option String)
    (h : "priority" ≠ f) : errorsFor f (prioCheck n v).2 = [] :=
  errorsFor_eq_nil (fun d hd => by rw [(prioCheck_shape d hd).1]; exact h)

theorem errorsFor_cross_ne {f : String} {crossErrs : List Diag}
    (hcross : ∀ d ∈ crossErrs, d.field = "planned_arrival_ts")
    (h : "planned_arrival_ts" ≠ f) : errorsFor f crossErrs = [] :=
  errorsFor_eq_nil (fun d hd => by rw [hcross d hd]; exact h)

theorem errorsFor_rowErrors_split (f : String) (t : TRow) (n : Nat) (crossErrs : List Diag) :
    errorsFor f (rowErrors t n crossErrs) =
      errorsFor f (numCheck n "weight_kg" t.weight_kg).2 ++
      errorsFor f (numCheck n "volume_cbm" t.volume_cbm).2 ++
      errorsFor f (numCheck n "cost_usd" t.cost_usd).2 ++
      errorsFor f (dtCheck n "planned_departure_ts" t.planned_departure_ts).2 ++
      errorsFor f (dtCheck n "planned_arrival_ts" t.planned_arrival_ts).2 ++
      errorsFor f crossErrs ++
      errorsFor f (modeCheck n t.mode).2 ++
      errorsFor f (prioCheck n t.priority).2 ++
      errorsFor f (requiredErrors n (builtRow t n)) := by
  simp only [rowErrors, errorsFor_append]

/-- `C5`: when `shipment_id` resolves to a falsy value and `order_id` to
a truthy one, the row normalizer synthesizes
`shipment_id = "derived_" + slugify(order_id)` before the required-field
sweep — so no diagnostic is attributed to `shipment_id` and a normalized
row carries the derived id — and emits exactly one warning with code
`derived_shipment_id`; e.g. `slugify "X Y" = "x_y"`. -/
theorem c5_derived_shipment_id :
    slugify "X Y" = "x_y" ∧
    ∀ (t0 : TRow) (n : Nat) (oid : String) (out : Option NRow × List Diag × List Diag),
      optTruthy t0.shipment_id = false → t0.order_id = some oid → oid ≠ "" →
      normalizeFromText t0 n = .ok out →
      ((stepDerived t0 n).1.shipment_id = some ("derived_" ++ slugify oid) ∧
       (stepDerived t0 n).2 =
         [mkDiag n "shipment_id" "derived_shipment_id"
            "shipment_id missing; derived from order_id." (.str ("derived_" ++ slugify oid))] ∧
       out.2.2.countP (fun d => d.code == "derived_shipment_id") = 1 ∧
       errorsFor "shipment_id" out.2.1 = [] ∧
       (∀ r, out.1 = some r → r.shipment_id = some ("derived_" ++ slugify oid))) := by
  refine ⟨by decide, ?_⟩
  intro t0 n oid out hsf hoid hone hok
  have hcond : ¬ optTruthy t0.shipment_id = true ∧ optTruthy t0.order_id = true := by
    constructor
    · simp [hsf]
    · rw [hoid]; simp [optTruthy, hone]
  have hsd : stepDerived t0 n =
      ({ t0 with shipment_id := some ("derived_" ++ slugify oid) },
       [mkDiag n "shipment_id" "derived_shipment_id"
          "shipment_id missing; derived from order_id." (.str ("derived_" ++ slugify oid))]) := by
    unfold stepDerived
    rw [if_pos hcond, hoid]
    rfl
  have ht : (stepDerived t0 n).1 = { t0 with shipment_id := some ("derived_" ++ slugify oid) } := by
    rw [hsd]
  have hsd2 : (stepDerived t0 n).2 =
      [mkDiag n "shipment_id" "derived_shipment_id"
        "shipment_id missing; derived from order_id." (.str ("derived_" ++ slugify oid))] := by
    rw [hsd]
  have hship : (builtRow (stepDerived t0 n).1 n).shipment_id =
      some ("derived_" ++ slugify oid) := by
    simp [builtRow, ht]
  have shape := normalizeFromText_ok_shape hok
  refine ⟨by rw [ht], hsd2, ?_, ?_, ?_⟩
  · have hw : out.2.2 = rowWarnings t0 (stepDerived t0 n).1 n := by
      rcases shape with ⟨-, -, hw, -⟩ | ⟨-, -, hw, -⟩ <;> exact hw
    have hb : ∀ (name : String) (v : Option String),
        (boolCheck n name v).2.countP (fun d => d.code == "derived_shipment_id") = 0 := by
      intro name v
      refine List.countP_eq_zero.mpr ?_
      intro d hd
      simp [boolCheck_code d hd]
    rw [hw]
    unfold rowWarnings
    simp [List.countP_append, hb, hsd2, mkDiag]
  · rcases shape with ⟨-, h21, -, -⟩ | ⟨-, -, -, crossErrs, hc, hre⟩
    · rw [h21]; rfl
    · have hcross := fun d hd => (crossCheck_ok_shape hc d hd).1
      rw [hre, errorsFor_rowErrors_split,
        errorsFor_numCheck_ne _ _ _ _ (by decide), errorsFor_numCheck_ne _ _ _ _ (by decide),
        errorsFor_numCheck_ne _ _ _ _ (by decide), errorsFor_dtCheck_ne _ _ _ _ (by decide),
        errorsFor_dtCheck_ne _ _ _ _ (by decide), errorsFor_cross_ne hcross (by decide),
        errorsFor_modeCheck_ne _ _ _ (by decide), errorsFor_prioCheck_ne _ _ _ (by decide)]
      simp only [requiredErrors, errorsFor_append, errorsFor_reqErr]
      simp [hship, reqErr]
  · intro r hr
    rcases shape with ⟨h1, -, -⟩ | ⟨h1, -, -⟩
    · have h2 : some r = some (builtRow (stepDerived t0 n).1 n) := hr.symm.trans h1
      injection h2 with h3
      rw [h3]
      exact hship
    · rw [h1] at hr
      exact absurd hr (by simp)

theorem c5_witness :
    slugify "X Y" = "x_y" ∧
    ([mkDiag 2 "shipment_id" "derived_shipment_id"
        "shipment_id missing; derived from order_id."
        (.str "derived_x_y")] : List Diag).countP (fun d => d.code == "derived_shipment_id") = 1 ∧
    errorsFor "shipment_id" ([] : List Diag) = [] := by
  obtain ⟨hslug, hmain⟩ := c5_derived_shipment_id
  obtain ⟨-, -, hcount, herrs, -⟩ :=
    hmain (step1 exRowDerived) 2 "X Y"
      (some
        { shipment_id := some "derived_x_y", order_id := some "X Y", origin_name := some "A",
          destination_name := some "B", origin_country := some "CN",
          destination_country := some "US",
          planned_departure_ts := some "2024-01-01T00:00:00+00:00",
          planned_arrival_ts := some "2024-01-02T00:00:00+00:00", mode := some "air",
          weight_kg := .flt (.finite ⟨1, 1⟩), volume_cbm := .flt (.finite ⟨1, 1⟩),
          cost_usd := .flt (.finite ⟨2, 1⟩), priority := some "low", carrier_name := none,
          incoterm := none, commodity := none, container_type := none, hazmat_flag := none,
          temperature_control_flag := none },
       [],
       [mkDiag 2 "shipment_id" "derived_shipment_id"
          "shipment_id missing; derived from order_id." (.str "derived_x_y")])
      (by decide) (by decide) (by decide) (by decide)
  exact ⟨hslug, hcount, herrs⟩

/-- `C9` as stated is false: an unparseable timestamp does not always
yield only its single `invalid_datetime` error. In this row both
timestamps are rejected by `_to_datetime` (the `Z` ruins the form it
tries), so their raw text is retained; but `datetime.fromisoformat`
accepts any single character between date and time, so the cross-field
check still parses the retained text, compares, and attributes an
additional `invalid_time_order` error to `planned_arrival_ts`. -/
theorem c9_counterexample_retained_raw_reenters_cross_check :
    isBlank (some "2024-01-01Z00:00") = false ∧
    toDatetime (some "2024-01-01Z00:00") = Option.none ∧
    (normalizeRow exRowCrossRaw 2).toOption.map
        (fun out => (errorsFor "planned_arrival_ts" out.2.1).map (fun d => d.code)) =
      some ["invalid_datetime", "invalid_time_order"] := by
  refine ⟨by decide, by decide, by decide⟩

/-- `C9` (amended): an unrecognized non-blank `mode` (or `priority`)
yields exactly the two errors `invalid_mode`/`invalid_priority` and
`missing_required`, because the stored value becomes null before the
required sweep. A non-blank unparseable numeric field yields exactly its
single `invalid_number` error, and an unparseable timestamp yields its
`invalid_datetime` error and never `missing_required` (the raw text is
retained) — but `planned_arrival_ts` may additionally collect
`invalid_time_order` when the retained raw text still parses in the
cross-field check. -/
theorem c9_amended_error_pairing :
    (∀ (t0 : TRow) (n : Nat) (s : String) (out : Option NRow × List Diag × List Diag),
      t0.mode = some s → toMode (some s) = Option.none → normalizeFromText t0 n = .ok out →
      errorsFor "mode" out.2.1 =
        [mkDiag n "mode" "invalid_mode" "mode must be one of road, rail, sea, air, multimodal."
           (.str s),
         mkDiag n "mode" "missing_required" "mode is required." .none]) ∧
    (∀ (t0 : TRow) (n : Nat) (s : String) (out : Option NRow × List Diag × List Diag),
      t0.priority = some s → toPriority (some s) = Option.none →
      normalizeFromText t0 n = .ok out →
      errorsFor "priority" out.2.1 =
        [mkDiag n "priority" "invalid_priority"
           "priority must be one of critical, high, medium, low." (.str s),
         mkDiag n "priority" "missing_required" "priority is required." .none]) ∧
    (∀ (t0 : TRow) (n : Nat) (s : String) (out : Option NRow × List Diag × List Diag),
      t0.weight_kg = some s → toFloat (some s) = Option.none → normalizeFromText t0 n = .ok out →
      errorsFor "weight_kg" out.2.1 =
        [mkDiag n "weight_kg" "invalid_number" "weight_kg must be numeric." (.str s)]) ∧
    (∀ (t0 : TRow) (n : Nat) (s : String) (out : Option NRow × List Diag × List Diag),
      t0.volume_cbm = some s → toFloat (some s) = Option.none → normalizeFromText t0 n = .ok out →
      errorsFor "volume_cbm" out.2.1 =
        [mkDiag n "volume_cbm" "invalid_number" "volume_cbm must be numeric." (.str s)]) ∧
    (∀ (t0 : TRow) (n : Nat) (s : String) (out : Option NRow × List Diag × List Diag),
      t0.cost_usd = some s → toFloat (some s) = Option.none → normalizeFromText t0 n = .ok out →
      errorsFor "cost_usd" out.2.1 =
        [mkDiag n "cost_usd" "invalid_number" "cost_usd must be numeric." (.str s)]) ∧
    (∀ (t0 : TRow) (n : Nat) (s : String) (out : Option NRow × List Diag × List Diag),
      t0.planned_departure_ts = some s → toDatetime (some s) = Option.none →
      normalizeFromText t0 n = .ok out →
      errorsFor "planned_departure_ts" out.2.1 =
        [mkDiag n "planned_departure_ts" "invalid_datetime"
           "planned_departure_ts is not a supported datetime format." (.str s)]) ∧
    (∀ (t0 : TRow) (n : Nat) (s : String) (out : Option NRow × List Diag × List Diag),
      t0.planned_arrival_ts = some s → toDatetime (some s) = Option.none →
      normalizeFromText t0 n = .ok out →
      ∃ rest, errorsFor "planned_arrival_ts" out.2.1 =
          mkDiag n "planned_arrival_ts" "invalid_datetime"
            "planned_arrival_ts is not a supported datetime format." (.str s) :: rest ∧
        ∀ d ∈ rest, d.code = "invalid_time_order") := by
  refine ⟨?_, ?_, ?_, ?_, ?_, ?_, ?_⟩
  · intro t0 n s out hval hunrec hok
    obtain ⟨-, hp, -, -, -, -, -, -⟩ := stepDerived_preserves t0 n
    have hvt : (stepDerived t0 n).1.mode = some s := by rw [hp, hval]
    have hown : (modeCheck n (stepDerived t0 n).1.mode).2 =
        [mkDiag n "mode" "invalid_mode" "mode must be one of road, rail, sea, air, multimodal."
           (.str s)] := by
      rw [hvt]
      simp [modeCheck, hunrec, cellVal]
    have hbv : (builtRow (stepDerived t0 n).1 n).mode = Option.none := by
      show (modeCheck n (stepDerived t0 n).1.mode).1 = Option.none
      rw [hvt]
      simp [modeCheck, hunrec]
    rcases normalizeFromText_ok_shape hok with ⟨-, -, -, crossErrs, hc, hre⟩ |
      ⟨-, -, -, crossErrs, hc, hre⟩
    · exfalso
      have hmem : mkDiag n "mode" "invalid_mode"
          "mode must be one of road, rail, sea, air, multimodal." (.str s) ∈
          rowErrors (stepDerived t0 n).1 n crossErrs := by
        unfold rowErrors
        rw [hown]
        simp
      rw [hre] at hmem
      simp at hmem
    · have hcross := fun d hd => (crossCheck_ok_shape hc d hd).1
      rw [hre, errorsFor_rowErrors_split,
        errorsFor_numCheck_ne _ _ "weight_kg" _ (by decide),
        errorsFor_numCheck_ne _ _ "volume_cbm" _ (by decide),
        errorsFor_numCheck_ne _ _ "cost_usd" _ (by decide),
        errorsFor_dtCheck_ne _ _ "planned_departure_ts" _ (by decide),
        errorsFor_dtCheck_ne _ _ "planned_arrival_ts" _ (by decide),
        errorsFor_cross_ne hcross (by decide),
        errorsFor_prioCheck_ne _ _ _ (by decide),
        errorsFor_eq_self (fun d hd => (modeCheck_shape d hd).1), hown]
      simp only [requiredErrors, errorsFor_append, errorsFor_reqErr]
      simp [hbv, reqErr]
  · intro t0 n s out hval hunrec hok
    obtain ⟨-, -, hp, -, -, -, -, -⟩ := stepDerived_preserves t0 n
    have hvt : (stepDerived t0 n).1.priority = some s := by rw [hp, hval]
    have hown : (prioCheck n (stepDerived t0 n).1.priority).2 =
        [mkDiag n "priority" "invalid_priority"
           "priority must be one of critical, high, medium, low." (.str s)] := by
      rw [hvt]
      simp [prioCheck, hunrec, cellVal]
    have hbv : (builtRow (stepDerived t0 n).1 n).priority = Option.none := by
      show (prioCheck n (stepDerived t0 n).1.priority).1 = Option.none
      rw [hvt]
      simp [prioCheck, hunrec]
    rcases normalizeFromText_ok_shape hok with ⟨-, -, -, crossErrs, hc, hre⟩ |
      ⟨-, -, -, crossErrs, hc, hre⟩
    · exfalso
      have hmem : mkDiag n "priority" "invalid_priority"
          "priority must be one of critical, high, medium, low." (.str s) ∈
          rowErrors (stepDerived t0 n).1 n crossErrs := by
        unfold rowErrors
        rw [hown]
        simp
      rw [hre] at hmem
      simp at hmem
    · have hcross := fun d hd => (crossCheck_ok_shape hc d hd).1
      rw [hre, errorsFor_rowErrors_split,
        errorsFor_numCheck_ne _ _ "weight_kg" _ (by decide),
        errorsFor_numCheck_ne _ _ "volume_cbm" _ (by decide),
        errorsFor_numCheck_ne _ _ "cost_usd" _ (by decide),
        errorsFor_dtCheck_ne _ _ "planned_departure_ts" _ (by decide),
        errorsFor_dtCheck_ne _ _ "planned_arrival_ts" _ (by decide),
        errorsFor_cross_ne hcross (by decide),
        errorsFor_modeCheck_ne _ _ _ (by decide),
        errorsFor_eq_self (fun d hd => (prioCheck_shape d hd).1), hown]
      simp only [requiredErrors, errorsFor_append, errorsFor_reqErr]
      simp [hbv, reqErr]
  · intro t0 n s out hval hunp hok
    obtain ⟨-, -, -, hp, -, -, -, -⟩ := stepDerived_preserves t0 n
    have hvt : (stepDerived t0 n).1.weight_kg = some s := by rw [hp, hval]
    have hown : (numCheck n "weight_kg" (stepDerived t0 n).1.weight_kg).2 =
        [mkDiag n "weight_kg" "invalid_number" "weight_kg must be numeric." (.str s)] := by
      rw [hvt]
      simp [numCheck, hunp]
    have hbv : (builtRow (stepDerived t0 n).1 n).weight_kg = NumVal.raw s := by
      show (numCheck n "weight_kg" (stepDerived t0 n).1.weight_kg).1 = NumVal.raw s
      rw [hvt]
      simp [numCheck, hunp]
    rcases normalizeFromText_ok_shape hok with ⟨-, -, -, crossErrs, hc, hre⟩ |
      ⟨-, -, -, crossErrs, hc, hre⟩
    · exfalso
      have hmem : mkDiag n "weight_kg" "invalid_number" "weight_kg must be numeric." (.str s) ∈
          rowErrors (stepDerived t0 n).1 n crossErrs := by
        unfold rowErrors
        rw [hown]
        simp
      rw [hre] at hmem
      simp at hmem
    · have hcross := fun d hd => (crossCheck_ok_shape hc d hd).1
      rw [hre, errorsFor_rowErrors_split,
        errorsFor_numCheck_ne _ _ "volume_cbm" _ (by decide),
        errorsFor_numCheck_ne _ _ "cost_usd" _ (by decide),
        errorsFor_dtCheck_ne _ _ "planned_departure_ts" _ (by decide),
        errorsFor_dtCheck_ne _ _ "planned_arrival_ts" _ (by decide),
        errorsFor_cross_ne hcross (by decide),
        errorsFor_modeCheck_ne _ _ _ (by decide),
        errorsFor_prioCheck_ne _ _ _ (by decide),
        errorsFor_eq_self (fun d hd => numCheck_field d hd), hown]
      simp only [requiredErrors, errorsFor_append, errorsFor_reqErr]
      simp [hbv, reqErr, NumVal.isNone]
  · intro t0 n s out hval hunp hok
    obtain ⟨-, -, -, -, hp, -, -, -⟩ := stepDerived_preserves t0 n
    have hvt : (stepDerived t0 n).1.volume_cbm = some s := by rw [hp, hval]
    have hown : (numCheck n "volume_cbm" (stepDerived t0 n).1.volume_cbm).2 =
        [mkDiag n "volume_cbm" "invalid_number" "volume_cbm must be numeric." (.str s)] := by
      rw [hvt]
      simp [numCheck, hunp]
    have hbv : (builtRow (stepDerived t0 n).1 n).volume_cbm = NumVal.raw s := by
      show (numCheck n "volume_cbm" (stepDerived t0 n).1.volume_cbm).1 = NumVal.raw s
      rw [hvt]
      simp [numCheck, hunp]
    rcases normalizeFromText_ok_shape hok with ⟨-, -, -, crossErrs, hc, hre⟩ |
      ⟨-, -, -, crossErrs, hc, hre⟩
    · exfalso
      have hmem : mkDiag n "volume_cbm" "invalid_number" "volume_cbm must be numeric." (.str s) ∈
          rowErrors (stepDerived t0 n).1 n crossErrs := by
        unfold rowErrors
        rw [hown]
        simp
      rw [hre] at hmem
      simp at hmem
    · have hcross := fun d hd => (crossCheck_ok_shape hc d hd).1
      rw [hre, errorsFor_rowErrors_split,
        errorsFor_numCheck_ne _ _ "weight_kg" _ (by decide),
        errorsFor_numCheck_ne _ _ "cost_usd" _ (by decide),
        errorsFor_dtCheck_ne _ _ "planned_departure_ts" _ (by decide),
        errorsFor_dtCheck_ne _ _ "planned_arrival_ts" _ (by decide),
        errorsFor_cross_ne hcross (by decide),
        errorsFor_modeCheck_ne _ _ _ (by decide),
        errorsFor_prioCheck_ne _ _ _ (by decide),
        errorsFor_eq_self (fun d hd => numCheck_field d hd), hown]
      simp only [requiredErrors, errorsFor_append, errorsFor_reqErr]
      simp [hbv, reqErr, NumVal.isNone]
  · intro t0 n s out hval hunp hok
    obtain ⟨-, -, -, -, -, hp, -, -⟩ := stepDerived_preserves t0 n
    have hvt : (stepDerived t0 n).1.cost_usd = some s := by rw [hp, hval]
    have hown : (numCheck n "cost_usd" (stepDerived t0 n).1.cost_usd).2 =
        [mkDiag n "cost_usd" "invalid_number" "cost_usd must be numeric." (.str s)] := by
      rw [hvt]
      simp [numCheck, hunp]
    have hbv : (builtRow (stepDerived t0 n).1 n).cost_usd = NumVal.raw s := by
      show (numCheck n "cost_usd" (stepDerived t0 n).1.cost_usd).1 = NumVal.raw s
      rw [hvt]
      simp [numCheck, hunp]
    rcases normalizeFromText_ok_shape hok with ⟨-, -, -, crossErrs, hc, hre⟩ |
      ⟨-, -, -, crossErrs, hc, hre⟩
    · exfalso
      have hmem : mkDiag n "cost_usd" "invalid_number" "cost_usd must be numeric." (.str s) ∈
          rowErrors (stepDerived t0 n).1 n crossErrs := by
        unfold rowErrors
        rw [hown]
        simp
      rw [hre] at hmem
      simp at hmem
    · have hcross := fun d hd => (crossCheck_ok_shape hc d hd).1
      rw [hre, errorsFor_rowErrors_split,
        errorsFor_numCheck_ne _ _ "weight_kg" _ (by decide),
        errorsFor_numCheck_ne _ _ "volume_cbm" _ (by decide),
        errorsFor_dtCheck_ne _ _ "planned_departure_ts" _ (by decide),
        errorsFor_dtCheck_ne _ _ "planned_arrival_ts" _ (by decide),
        errorsFor_cross_ne hcross (by decide),
        errorsFor_modeCheck_ne _ _ _ (by decide),
        errorsFor_prioCheck_ne _ _ _ (by decide),
        errorsFor_eq_self (fun d hd => numCheck_field d hd), hown]
      simp only [requiredErrors, errorsFor_append, errorsFor_reqErr]
      simp [hbv, reqErr, NumVal.isNone]
  · intro t0 n s out hval hunp hok
    obtain ⟨-, -, -, -, -, -, hp, -⟩ := stepDerived_preserves t0 n
    have hvt : (stepDerived t0 n).1.planned_departure_ts = some s := by rw [hp, hval]
    have hown : (dtCheck n "planned_departure_ts" (stepDerived t0 n).1.planned_departure_ts).2 =
        [mkDiag n "planned_departure_ts" "invalid_datetime"
           "planned_departure_ts is not a supported datetime format." (.str s)] := by
      rw [hvt]
      simp [dtCheck, hunp]
    have hbv : (builtRow (stepDerived t0 n).1 n).planned_departure_ts = some s := by
      show (dtCheck n "planned_departure_ts" (stepDerived t0 n).1.planned_departure_ts).1 = some s
      rw [hvt]
      simp [dtCheck, hunp]
    rcases normalizeFromText_ok_shape hok with ⟨-, -, -, crossErrs, hc, hre⟩ |
      ⟨-, -, -, crossErrs, hc, hre⟩
    · exfalso
      have hmem : mkDiag n "planned_departure_ts" "invalid_datetime"
          "planned_departure_ts is not a supported datetime format." (.str s) ∈
          rowErrors (stepDerived t0 n).1 n crossErrs := by
        unfold rowErrors
        rw [hown]
        simp
      rw [hre] at hmem
      simp at hmem
    · have hcross := fun d hd => (crossCheck_ok_shape hc d hd).1
      rw [hre, errorsFor_rowErrors_split,
        errorsFor_numCheck_ne _ _ "weight_kg" _ (by decide),
        errorsFor_numCheck_ne _ _ "volume_cbm" _ (by decide),
        errorsFor_numCheck_ne _ _ "cost_usd" _ (by decide),
        errorsFor_dtCheck_ne _ _ "planned_arrival_ts" _ (by decide),
        errorsFor_cross_ne hcross (by decide),
        errorsFor_modeCheck_ne _ _ _ (by decide),
        errorsFor_prioCheck_ne _ _ _ (by decide),
        errorsFor_eq_self (fun d hd => dtCheck_field d hd), hown]
      simp only [requiredErrors, errorsFor_append, errorsFor_reqErr]
      simp [hbv, reqErr]
  · intro t0 n s out hval hunp hok
    obtain ⟨-, -, -, -, -, -, -, hp⟩ := stepDerived_preserves t0 n
    have hvt : (stepDerived t0 n).1.planned_arrival_ts = some s := by rw [hp, hval]
    have hown : (dtCheck n "planned_arrival_ts" (stepDerived t0 n).1.planned_arrival_ts).2 =
        [mkDiag n "planned_arrival_ts" "invalid_datetime"
           "planned_arrival_ts is not a supported datetime format." (.str s)] := by
      rw [hvt]
      simp [dtCheck, hunp]
    have hbv : (builtRow (stepDerived t0 n).1 n).planned_arrival_ts = some s := by
      show (dtCheck n "planned_arrival_ts" (stepDerived t0 n).1.planned_arrival_ts).1 = some s
      rw [hvt]
      simp [dtCheck, hunp]
    rcases normalizeFromText_ok_shape hok with ⟨-, -, -, crossErrs, hc, hre⟩ |
      ⟨-, -, -, crossErrs, hc, hre⟩
    · exfalso
      have hmem : mkDiag n "planned_arrival_ts" "invalid_datetime"
          "planned_arrival_ts is not a supported datetime format." (.str s) ∈
          rowErrors (stepDerived t0 n).1 n crossErrs := by
        unfold rowErrors
        rw [hown]
        simp
      rw [hre] at hmem
      simp at hmem
    · have hcross := fun d hd => (crossCheck_ok_shape hc d hd).1
      refine ⟨crossErrs, ?_, fun d hd => (crossCheck_ok_shape hc d hd).2⟩
      rw [hre, errorsFor_rowErrors_split,
        errorsFor_numCheck_ne _ _ "weight_kg" _ (by decide),
        errorsFor_numCheck_ne _ _ "volume_cbm" _ (by decide),
        errorsFor_numCheck_ne _ _ "cost_usd" _ (by decide),
        errorsFor_dtCheck_ne _ _ "planned_departure_ts" _ (by decide),
        errorsFor_eq_self hcross,
        errorsFor_modeCheck_ne _ _ _ (by decide),
        errorsFor_prioCheck_ne _ _ _ (by decide),
        errorsFor_eq_self (fun d hd => dtCheck_field d hd), hown]
      simp only [requiredErrors, errorsFor_append, errorsFor_reqErr]
      simp [hbv, reqErr]

theorem c9_amended_witness :
    errorsFor "mode"
        ([mkDiag 2 "mode" "invalid_mode" "mode must be one of road, rail, sea, air, multimodal."
            (.str "teleport"),
          mkDiag 2 "mode" "missing_required" "mode is required." .none] : List Diag) =
      [mkDiag 2 "mode" "invalid_mode" "mode must be one of road, rail, sea, air, multimodal."
          (.str "teleport"),
       mkDiag 2 "mode" "missing_required" "mode is required." .none] ∧
    errorsFor "weight_kg" ([exDiagBadWeight] : List Diag) = [exDiagBadWeight] := by
  constructor
  · exact c9_amended_error_pairing.1 (step1 exRowBadMode) 2 "teleport"
      (Option.none,
       [mkDiag 2 "mode" "invalid_mode" "mode must be one of road, rail, sea, air, multimodal."
          (.str "teleport"),
        mkDiag 2 "mode" "missing_required" "mode is required." .none], [])
      (by decide) (by decide) (by decide)
  · exact c9_amended_error_pairing.2.2.1 (step1 exRowBadWeight) 2 "x"
      (Option.none, [exDiagBadWeight], []) (by decide) (by decide) (by decide)

end Meridian
